import Mathlib

/-!
# OSPRD ramdisk lock manager (src/osprd.c)

A shallow embedding of the lock-related parts of the `osprd` block driver:
the device record `osprd_info_t`, the wake predicate `osprd_wake_cond`, the
release hook `osprd_close_last`, the three lock commands of `osprd_ioctl`,
`osprd_setup`, and the request handler `osprd_process_request` (as the list
of its completions and copies).

Conventions of the embedding.
* `unsigned` fields (`ticket_head`, `ticket_tail`, dead tickets, `f_flags`,
  `f_mode`) are `Nat`; every increment is written with an explicit
  `% 2 ^ 32`.
* `int` / `pid_t` fields are `Int`.  Signed overflow is undefined in C, so
  `num_ReadLocks` is only meaningful while it stays inside the `int` range;
  the embedding uses plain `Int` arithmetic for it.
* The two singly linked lists (`read_list`, `dead_tix`) are Lean lists, head
  of the C list first.
* Every region between `osp_spin_lock` and `osp_spin_unlock` is one atomic
  function.  A blocking `OSPRDIOCACQUIRE` is a sequence of such regions and
  is embedded as a small-step machine (`Pc`, `step`).
-/

namespace Osprd

/-! ## Constants -/

/-- `#define F_OSPRD_LOCKED 0x80000` -/
def F_OSPRD_LOCKED : Nat := 0x80000

/-- Linux `FMODE_WRITE` (linux/fs.h). -/
def FMODE_WRITE : Nat := 2

/-- Linux `O_SYNC` (asm/fcntl.h, octal 010000). -/
def O_SYNC : Nat := 4096

/-- Linux `READ` request direction (linux/fs.h). -/
def READ : Int := 0

/-- Linux `WRITE` request direction (linux/fs.h). -/
def WRITE : Int := 1

def EDEADLK : Int := 35
def EBUSY : Int := 16
def EINVAL : Int := 22
def ENOTTY : Int := 25
def ERESTARTSYS : Int := 512

/-- C logical negation on an unsigned value: `!x` is 1 when `x` is 0, else 0. -/
def c_not (x : Nat) : Nat := if x = 0 then 1 else 0

/-! ## Data model -/

/-- The lock-related fields of `osprd_info_t`. -/
structure osprd_info where
  ticket_head : Nat
  ticket_tail : Nat
  ramdisk_WriteLocked : Int
  pid_holdingWriteLock : Int
  num_ReadLocks : Int
  read_list : List Int
  dead_tix : List Nat
deriving DecidableEq, Repr

/-- The fields of `struct file` the driver looks at. -/
structure file where
  f_flags : Nat
  f_mode : Nat
deriving DecidableEq, Repr

/-- `(filp->f_mode & FMODE_WRITE) != 0` -/
def filp_writable (filp : file) : Bool := (filp.f_mode &&& FMODE_WRITE) != 0

/-- `osprd_open`: `filp->f_flags |= O_SYNC`. -/
def osprd_open (filp : file) : file :=
  { filp with f_flags := filp.f_flags ||| O_SYNC }

/-- `osprd_setup`: initialise the lock fields of a device. -/
def osprd_setup (d : osprd_info) : osprd_info :=
  { d with
    ticket_head := 0
    ticket_tail := 0
    ramdisk_WriteLocked := 0
    num_ReadLocks := 0
    pid_holdingWriteLock := -1
    read_list := []
    dead_tix := [] }

/-- A device right after `memset(d, 0, sizeof(osprd_info_t))`. -/
def zeroed : osprd_info :=
  { ticket_head := 0, ticket_tail := 0, ramdisk_WriteLocked := 0,
    pid_holdingWriteLock := 0, num_ReadLocks := 0, read_list := [], dead_tix := [] }

/-! ## `osprd_wake_cond` -/

/-- The inner scan of the dead-ticket loop, started at `itr = d->dead_tix`:
`while (itr->next != NULL && itr->next->ticket != tail) itr = itr->next;`
followed by unlinking `itr->next` when it is not `NULL`.  The argument is the
list from `itr` on; `none` is the `break` branch (`itr->next == NULL`). -/
def dead_unlink_next (tail : Nat) : List Nat → Option (List Nat)
  | [] => none
  | [_] => none
  | x :: y :: rest =>
    if y = tail then some (x :: rest)
    else (dead_unlink_next tail (y :: rest)).map (fun l => x :: l)

/-- The `while (d->dead_tix != NULL)` loop of `osprd_wake_cond`, one
iteration per unit of fuel.  Every iteration that does not leave the loop
unlinks one node, so `d.dead_tix.length` units are enough
(see `wake_loop_exit`). -/
def wake_loop : Nat → osprd_info → osprd_info
  | 0, d => d
  | fuel + 1, d =>
    match d.dead_tix with
    | [] => d
    | x :: rest =>
      if x = d.ticket_tail then
        wake_loop fuel
          { d with dead_tix := rest, ticket_tail := (d.ticket_tail + 1) % 2 ^ 32 }
      else
        match dead_unlink_next d.ticket_tail (x :: rest) with
        | some l =>
          wake_loop fuel
            { d with dead_tix := l, ticket_tail := (d.ticket_tail + 1) % 2 ^ 32 }
        | none => d

/-- The dead-ticket skip at the start of `osprd_wake_cond`. -/
def skip_dead (d : osprd_info) : osprd_info := wake_loop d.dead_tix.length d

/-- `osprd_wake_cond(d, dir, localTicket)`: the device after the call and the
returned `int`. -/
def osprd_wake_cond (d : osprd_info) (dir : Int) (localTicket : Nat) : osprd_info × Int :=
  let d1 := skip_dead d
  let r : Int :=
    if dir = READ then
      (if d1.ramdisk_WriteLocked = 0 ∧ d1.ticket_tail = localTicket then 1 else 0)
    else
      (if d1.num_ReadLocks = 0 ∧ d1.ramdisk_WriteLocked = 0 ∧ d1.ticket_tail = localTicket
        then 1 else 0)
  (d1, r)

/-! ## Reader list helpers shared by release and close -/

/-- The scan `while (itr->next != NULL && itr->next->reader != pid)` of the
release code followed by the unlink of `itr->next` when it is not `NULL`.
The argument is the list from `itr` on. -/
def read_unlink_next (pid : Int) : List Int → List Int
  | [] => []
  | [x] => [x]
  | x :: y :: rest =>
    if y = pid then x :: rest else x :: read_unlink_next pid (y :: rest)

/-- The body of `if (d->read_list != NULL) { ... }` up to (not including)
`d->num_ReadLocks--`: remove the current pid from a non-empty reader list. -/
def read_list_remove (pid : Int) : List Int → List Int
  | [] => []
  | r :: rest => if r = pid then rest else read_unlink_next pid (r :: rest)

/-- The deadlock scan `while (itr != NULL) { if (itr->reader == pid) return
-EDEADLK; itr = itr->next; }`: true when the scan returns. -/
def read_list_scan (pid : Int) : List Int → Bool
  | [] => false
  | r :: rest => if r = pid then true else read_list_scan pid rest

/-! ## `osprd_close_last` -/

/-- `osprd_close_last(inode, filp)` for a non-null `filp` of a ramdisk, run by
process `pid`: the device, the file and the returned `int`. -/
def osprd_close_last (d : osprd_info) (filp : file) (pid : Int) : osprd_info × file × Int :=
  if d.ramdisk_WriteLocked = 0 ∧ d.num_ReadLocks = 0 then
    (d, filp, -EINVAL)
  else
    let d1 : osprd_info :=
      if (filp.f_mode &&& FMODE_WRITE) ≠ 0 then
        { d with ramdisk_WriteLocked := 0, pid_holdingWriteLock := -1 }
      else
        match d.read_list with
        | [] => d
        | r :: rest =>
          { d with read_list := read_list_remove pid (r :: rest)
                   num_ReadLocks := d.num_ReadLocks - 1 }
    (d1, { filp with f_flags := filp.f_flags &&& c_not F_OSPRD_LOCKED }, 0)

/-! ## `osprd_ioctl`, the commands that never block -/

/-- The write grant: `ramdisk_WriteLocked = 1; pid_holdingWriteLock = pid;
f_flags |= F_OSPRD_LOCKED`. -/
def grant_write (d : osprd_info) (filp : file) (pid : Int) : osprd_info × file :=
  ({ d with ramdisk_WriteLocked := 1, pid_holdingWriteLock := pid },
   { filp with f_flags := filp.f_flags ||| F_OSPRD_LOCKED })

/-- The read grant: `num_ReadLocks++; f_flags |= F_OSPRD_LOCKED;` and a new
node for `pid` at the head of `read_list` (both branches of the
`read_list == NULL` test build the same list). -/
def grant_read (d : osprd_info) (filp : file) (pid : Int) : osprd_info × file :=
  ({ d with num_ReadLocks := d.num_ReadLocks + 1
            read_list := match d.read_list with
              | [] => [pid]
              | r :: rest => pid :: r :: rest },
   { filp with f_flags := filp.f_flags ||| F_OSPRD_LOCKED })

/-- `osprd_ioctl(..., OSPRDIOCTRYACQUIRE, ...)` run by process `pid`. -/
def ioctl_tryacquire (d : osprd_info) (filp : file) (pid : Int) : osprd_info × file × Int :=
  if pid = d.pid_holdingWriteLock then (d, filp, -EDEADLK)
  else if filp_writable filp then
    if read_list_scan pid d.read_list then (d, filp, -EDEADLK)
    else if d.num_ReadLocks ≠ 0 ∨ d.ramdisk_WriteLocked ≠ 0 ∨ d.ticket_head ≠ d.ticket_tail then
      (d, filp, -EBUSY)
    else
      let g := grant_write d filp pid
      (g.1, g.2, 0)
  else
    if d.ramdisk_WriteLocked ≠ 0 ∨ d.ticket_head ≠ d.ticket_tail then
      (d, filp, -EBUSY)
    else
      let g := grant_read d filp pid
      (g.1, g.2, 0)

/-- `osprd_ioctl(..., OSPRDIOCRELEASE, ...)` run by process `pid`. -/
def ioctl_release (d : osprd_info) (filp : file) (pid : Int) : osprd_info × file × Int :=
  if d.ramdisk_WriteLocked = 0 ∧ d.num_ReadLocks = 0 then
    (d, filp, -EINVAL)
  else
    let d1 : osprd_info :=
      if filp_writable filp then
        { d with ramdisk_WriteLocked := 0, pid_holdingWriteLock := -1 }
      else
        match d.read_list with
        | [] => d
        | r :: rest =>
          { d with read_list := read_list_remove pid (r :: rest)
                   num_ReadLocks := d.num_ReadLocks - 1 }
    (d1, { filp with f_flags := filp.f_flags &&& c_not F_OSPRD_LOCKED }, 0)

/-! ## `osprd_ioctl`, `OSPRDIOCACQUIRE`: its critical sections -/

/-- First critical section: the deadlock self-check.  True when the call
returns `-EDEADLK`. -/
def acquire_deadlock (d : osprd_info) (filp : file) (pid : Int) : Bool :=
  if pid = d.pid_holdingWriteLock then true
  else if filp_writable filp then read_list_scan pid d.read_list
  else false

/-- Second critical section: `localTicket = d->ticket_head; d->ticket_head++`. -/
def acquire_draw (d : osprd_info) : osprd_info × Nat :=
  ({ d with ticket_head := (d.ticket_head + 1) % 2 ^ 32 }, d.ticket_head)

/-- The test made right after the draw, under the mutex: true when the
caller has to wait on `d->blockq`. -/
def acquire_must_wait (d : osprd_info) (filp : file) (localTicket : Nat) : Bool :=
  if filp_writable filp then
    decide (d.num_ReadLocks ≠ 0 ∨ d.ramdisk_WriteLocked ≠ 0 ∨ d.ticket_tail ≠ localTicket)
  else
    decide (d.ramdisk_WriteLocked ≠ 0 ∨ d.ticket_tail ≠ localTicket)

/-- The grant made once the caller may proceed (write or read, by the file's
mode). -/
def acquire_grant (d : osprd_info) (filp : file) (pid : Int) : osprd_info × file :=
  if filp_writable filp then grant_write d filp pid else grant_read d filp pid

/-- The `-ERESTARTSYS` branch: push `localTicket` on `dead_tix`. -/
def acquire_mark_dead (d : osprd_info) (localTicket : Nat) : osprd_info :=
  { d with dead_tix := localTicket :: d.dead_tix }

/-- Last critical section: `d->ticket_tail++`. -/
def acquire_advance (d : osprd_info) : osprd_info :=
  { d with ticket_tail := (d.ticket_tail + 1) % 2 ^ 32 }

/-- The direction passed to `osprd_wake_cond` by a waiter. -/
def wait_dir (filp : file) : Int := if filp_writable filp then WRITE else READ

/-! ## Sessions and interleavings

A session is one open file of the ramdisk together with the process that
uses it.  `Pc` records where the session is inside `osprd_ioctl`; between
two critical sections of a blocking acquire any other session may run. -/

/-- Control point of a session. -/
inductive Pc where
  /-- Not inside the driver. -/
  | idle
  /-- In `OSPRDIOCACQUIRE`, deadlock check passed, ticket not yet drawn. -/
  | checked
  /-- Ticket `t` drawn, first test not yet made. -/
  | drawn (t : Nat)
  /-- Inside `wait_event_interruptible` with ticket `t`. -/
  | waiting (t : Nat)
  /-- `wait_event_interruptible` returned `-ERESTARTSYS`; ticket `t` not yet
  pushed on `dead_tix`. -/
  | signalled (t : Nat)
  /-- `osprd_wake_cond` returned true for ticket `t`; grant not yet made. -/
  | woken (t : Nat)
  /-- Lock granted for ticket `t`; `ticket_tail++` not yet made. -/
  | granted (t : Nat)
  /-- The file has been closed (`osprd_close_last` has run). -/
  | closed
deriving DecidableEq, Repr

/-- One session: the calling process, its file, its control point and the
value returned by its last completed driver call. -/
structure Session where
  pid : Int
  filp : file
  pc : Pc
  ret : Option Int
deriving DecidableEq, Repr

/-- What a session does next. -/
inductive Op where
  /-- Call `ioctl(OSPRDIOCACQUIRE)`: run the deadlock check. -/
  | acquire
  /-- Draw the ticket. -/
  | draw
  /-- Make the test that follows the draw: grant at once or start waiting. -/
  | test
  /-- One evaluation of the wait condition inside
  `wait_event_interruptible`; `sig` says whether a signal is pending when the
  condition comes out false. -/
  | wake (sig : Bool)
  /-- The `-ERESTARTSYS` branch. -/
  | markDead
  /-- The grant after a successful wait. -/
  | grant
  /-- The final `ticket_tail++`. -/
  | advance
  /-- Call `ioctl(OSPRDIOCTRYACQUIRE)`. -/
  | tryAcquire
  /-- Call `ioctl(OSPRDIOCRELEASE)`. -/
  | release
  /-- Close the file: `osprd_close_last`. -/
  | close
deriving DecidableEq, Repr

/-- One atomic step of one session on the device; `none` when the operation
is not the session's next one. -/
def sessionStep (d : osprd_info) (x : Session) : Op → Option (osprd_info × Session)
  | .acquire =>
    if x.pc = .idle then
      if acquire_deadlock d x.filp x.pid then some (d, { x with ret := some (-EDEADLK) })
      else some (d, { x with pc := .checked, ret := none })
    else none
  | .draw =>
    if x.pc = .checked then
      let r := acquire_draw d
      some (r.1, { x with pc := .drawn r.2 })
    else none
  | .test =>
    match x.pc with
    | .drawn t =>
      if acquire_must_wait d x.filp t then some (d, { x with pc := .waiting t })
      else
        let g := acquire_grant d x.filp x.pid
        some (g.1, { x with filp := g.2, pc := .granted t })
    | _ => none
  | .wake sig =>
    match x.pc with
    | .waiting t =>
      let w := osprd_wake_cond d (wait_dir x.filp) t
      if w.2 ≠ 0 then some (w.1, { x with pc := .woken t })
      else if sig then some (w.1, { x with pc := .signalled t })
      else some (w.1, x)
    | _ => none
  | .markDead =>
    match x.pc with
    | .signalled t =>
      some (acquire_mark_dead d t, { x with pc := .idle, ret := some (-ERESTARTSYS) })
    | _ => none
  | .grant =>
    match x.pc with
    | .woken t =>
      let g := acquire_grant d x.filp x.pid
      some (g.1, { x with filp := g.2, pc := .granted t })
    | _ => none
  | .advance =>
    match x.pc with
    | .granted _ => some (acquire_advance d, { x with pc := .idle, ret := some 0 })
    | _ => none
  | .tryAcquire =>
    if x.pc = .idle then
      let r := ioctl_tryacquire d x.filp x.pid
      some (r.1, { x with filp := r.2.1, ret := some r.2.2 })
    else none
  | .release =>
    if x.pc = .idle then
      let r := ioctl_release d x.filp x.pid
      some (r.1, { x with filp := r.2.1, ret := some r.2.2 })
    else none
  | .close =>
    if x.pc = .idle then
      let r := osprd_close_last d x.filp x.pid
      some (r.1, { x with filp := r.2.1, pc := .closed, ret := some r.2.2 })
    else none

/-- The device and all sessions attached to it. -/
structure Sys where
  d : osprd_info
  ss : List Session
deriving DecidableEq, Repr

/-- A scheduled step: session number `i` performs `op`. -/
structure Action where
  i : Nat
  op : Op
deriving DecidableEq, Repr

/-- One step of the whole system. -/
def step (s : Sys) (a : Action) : Option Sys :=
  match s.ss[a.i]? with
  | none => none
  | some x =>
    match sessionStep s.d x a.op with
    | none => none
    | some r => some { d := r.1, ss := s.ss.set a.i r.2 }

/-- Run a schedule. -/
def run : Sys → List Action → Option Sys
  | s, [] => some s
  | s, a :: rest =>
    match step s a with
    | none => none
    | some s1 => run s1 rest

/-- The system after module load (`memset` and `osprd_setup`) with the given
processes having opened the given files (`osprd_open`). -/
def boot (opens : List (Int × file)) : Sys :=
  { d := osprd_setup zeroed
    ss := opens.map (fun o => { pid := o.1, filp := osprd_open o.2, pc := .idle, ret := none }) }

/-- States reachable from the initial state by some schedule. -/
def Reachable (s : Sys) : Prop := ∃ opens tr, run (boot opens) tr = some s

/-! ## Observations along a run -/

/-- Ticket events, recorded with the values seen at the instant they happen. -/
inductive Event where
  /-- Session `i` drew ticket `t`. -/
  | draw (i t : Nat)
  /-- Session `i`, holding ticket `t`, was granted the lock while
  `ticket_tail` was `tail`. -/
  | grant (i t tail : Nat)
  /-- Session `i`, granted with ticket `t`, moved `ticket_tail` from `before`
  to `after`. -/
  | advance (i t before after : Nat)
  /-- Session `i` pushed its ticket `t` on `dead_tix`. -/
  | dead (i t : Nat)
deriving DecidableEq, Repr

/-- The events of one step, read off the state before the step. -/
def observe (d : osprd_info) (x : Session) (i : Nat) : Op → List Event
  | .draw => if x.pc = .checked then [.draw i d.ticket_head] else []
  | .test =>
    match x.pc with
    | .drawn t => if acquire_must_wait d x.filp t then [] else [.grant i t d.ticket_tail]
    | _ => []
  | .grant =>
    match x.pc with
    | .woken t => [.grant i t d.ticket_tail]
    | _ => []
  | .advance =>
    match x.pc with
    | .granted t => [.advance i t d.ticket_tail (acquire_advance d).ticket_tail]
    | _ => []
  | .markDead =>
    match x.pc with
    | .signalled t => [.dead i t]
    | _ => []
  | _ => []

/-- Run a schedule, appending the events of every step to `log`. -/
def exec : Sys → List Event → List Action → Option (Sys × List Event)
  | s, log, [] => some (s, log)
  | s, log, a :: rest =>
    match s.ss[a.i]? with
    | none => none
    | some x =>
      match step s a with
      | none => none
      | some s1 => exec s1 (log ++ observe s.d x a.i a.op) rest

/-- Tickets granted, oldest first. -/
def grantsOf : List Event → List Nat
  | [] => []
  | .grant _ t _ :: rest => t :: grantsOf rest
  | _ :: rest => grantsOf rest

/-- Tickets pushed on `dead_tix`, oldest first. -/
def deadOf : List Event → List Nat
  | [] => []
  | .dead _ t :: rest => t :: deadOf rest
  | _ :: rest => deadOf rest

/-- Number of tickets drawn. -/
def drawCount : List Event → Nat
  | [] => 0
  | .draw _ _ :: rest => drawCount rest + 1
  | _ :: rest => drawCount rest

/-! ## Concrete sessions used in the examples -/

/-- A file opened read-only (`FMODE_READ`). -/
def roFile : file := { f_flags := 0, f_mode := 1 }

/-- A file opened read-write (`FMODE_READ | FMODE_WRITE`). -/
def rwFile : file := { f_flags := 0, f_mode := 3 }

/-- A state in which process 101 holds the write lock through session 0. -/
def writeHeldSys : Sys :=
  { d := ⟨1, 1, 1, 101, 0, [], []⟩
    ss := [⟨101, ⟨528384, 3⟩, .idle, some 0⟩, ⟨102, ⟨4096, 1⟩, .idle, none⟩] }

/-- A state in which process 101 holds a read lock (session 0) and has a
second, writable file open (session 1). -/
def readHeldSys : Sys :=
  { d := ⟨0, 0, 0, -1, 1, [101], []⟩
    ss := [⟨101, ⟨528384, 1⟩, .idle, some 0⟩, ⟨101, ⟨4096, 3⟩, .idle, none⟩] }

/-! ## The ticket invariant -/

/-- How far a ticket holder has got. -/
inductive Stage where
  /-- Ticket drawn, not yet told to proceed (`drawn`, `waiting`, `signalled`). -/
  | queued
  /-- `osprd_wake_cond` returned true, grant pending. -/
  | woken
  /-- Lock granted, `ticket_tail++` pending. -/
  | granted
deriving DecidableEq, Repr

/-- The ticket a control point holds, with its stage. -/
def Pc.slot : Pc → Option (Nat × Stage)
  | .drawn t => some (t, .queued)
  | .waiting t => some (t, .queued)
  | .signalled t => some (t, .queued)
  | .woken t => some (t, .woken)
  | .granted t => some (t, .granted)
  | _ => none

/-- The ticket slot of session `j` (none when there is no such session). -/
def slotOf (s : Sys) (j : Nat) : Option (Nat × Stage) :=
  match s.ss[j]? with
  | some x => x.pc.slot
  | none => none

/-- The invariant of the ticket queue, over the ticket counters, the dead
list, the slots of all sessions and the events so far. -/
structure TInv (head tail : Nat) (dead : List Nat) (slots : Nat → Option (Nat × Stage))
    (log : List Event) : Prop where
  head_eq : head = drawCount log
  head_lt : head < 2 ^ 32
  tail_le_head : tail ≤ head
  live_range : ∀ j t st, slots j = some (t, st) → tail ≤ t ∧ t < head
  live_inj : ∀ j k t st st2, slots j = some (t, st) → slots k = some (t, st2) → j = k
  dead_range : ∀ k ∈ dead, tail ≤ k ∧ k < head
  dead_nodup : dead.Nodup
  dead_live : ∀ j t st, slots j = some (t, st) → t ∉ dead
  served_tail : ∀ j t st, slots j = some (t, st) → st ≠ Stage.queued → t = tail
  grant_ok : ∀ i t tl, Event.grant i t tl ∈ log → tl = t
  adv_ok : ∀ i t a b, Event.advance i t a b ∈ log → a = t ∧ b = t + 1
  sorted : (grantsOf log).Pairwise (fun a b => a < b)
  grants_bound : ∀ g ∈ grantsOf log,
    g < tail ∨ (g = tail ∧ ∃ j, slots j = some (g, Stage.granted))
  granted_logged : ∀ j t, slots j = some (t, Stage.granted) → t ∈ grantsOf log
  dead_logged : ∀ k ∈ dead, k ∈ deadOf log
  passed : ∀ k, k < tail → k ∈ grantsOf log ∨ k ∈ deadOf log
  complete : ∀ k, tail ≤ k → k < head → (∃ j st, slots j = some (k, st)) ∨ k ∈ dead

/-- The ticket invariant of a system state with its event log, for runs that
draw fewer than `2 ^ 32` tickets. -/
def Inv (s : Sys) (log : List Event) : Prop :=
  drawCount log < 2 ^ 32 →
    TInv s.d.ticket_head s.d.ticket_tail s.d.dead_tix (slotOf s) log

/-! ## A schedule with a wait, an interruption and a dead-ticket skip -/

/-- Process 101 opens the ramdisk read-write, 102 and 103 read-only. -/
def fifoOpens : List (Int × file) := [(101, rwFile), (102, roFile), (103, roFile)]

/-- 101 is granted the write lock with ticket 0; 102 and 103 queue with
tickets 1 and 2; 102 is interrupted; 101 releases; 103 skips the dead ticket
1 and is granted with ticket 2. -/
def fifoSchedule : List Action :=
  [⟨0, .acquire⟩, ⟨0, .draw⟩, ⟨0, .test⟩, ⟨0, .advance⟩,
   ⟨1, .acquire⟩, ⟨1, .draw⟩, ⟨1, .test⟩,
   ⟨2, .acquire⟩, ⟨2, .draw⟩, ⟨2, .test⟩,
   ⟨1, .wake true⟩, ⟨1, .markDead⟩,
   ⟨0, .release⟩,
   ⟨2, .wake false⟩, ⟨2, .grant⟩, ⟨2, .advance⟩]

/-- The state reached by `fifoSchedule`. -/
def fifoState : Sys :=
  { d := ⟨3, 3, 0, -1, 1, [103], []⟩
    ss := [⟨101, ⟨0, 3⟩, .idle, some 0⟩,
           ⟨102, ⟨4096, 1⟩, .idle, some (-512)⟩,
           ⟨103, ⟨528384, 1⟩, .idle, some 0⟩] }

/-- The events of `fifoSchedule`. -/
def fifoLog : List Event :=
  [.draw 0 0, .grant 0 0 0, .advance 0 0 0 1, .draw 1 1, .draw 2 2, .dead 1 1,
   .grant 2 2 2, .advance 2 2 2 3]

/-! ## Tickets still waiting for their grant -/

/-- The ticket of a control point that has drawn a ticket and has neither
been granted the lock nor been interrupted yet. -/
def Pc.pending : Pc → Option Nat
  | .drawn t => some t
  | .waiting t => some t
  | .woken t => some t
  | _ => none

/-- The pending ticket of session `j`, if any. -/
def pendingOf (s : Sys) (j : Nat) : Option Nat :=
  match s.ss[j]? with
  | some x => x.pc.pending
  | none => none

/-! ## The scenario: a writer, two readers and a late try-acquire -/

/-- A (201) and D (204) open the ramdisk read-write, B (202) and C (203)
read-only. -/
def scenarioOpens : List (Int × file) :=
  [(201, rwFile), (202, roFile), (203, roFile), (204, rwFile)]

/-- A's blocking acquire, run to its end. -/
def scenarioA : List Action :=
  [⟨0, .acquire⟩, ⟨0, .draw⟩, ⟨0, .test⟩, ⟨0, .advance⟩]

/-- B and C call acquire, start waiting and each evaluate the wake
predicate once. -/
def scenarioBC : List Action :=
  [⟨1, .acquire⟩, ⟨1, .draw⟩, ⟨1, .test⟩, ⟨2, .acquire⟩, ⟨2, .draw⟩, ⟨2, .test⟩,
   ⟨1, .wake false⟩, ⟨2, .wake false⟩]

/-- A releases. -/
def scenarioRelease : List Action := [⟨0, .release⟩]

/-- B re-evaluates its predicate and finishes its acquire. -/
def scenarioB : List Action := [⟨1, .wake false⟩, ⟨1, .grant⟩, ⟨1, .advance⟩]

/-- C re-evaluates its predicate and finishes its acquire. -/
def scenarioC : List Action := [⟨2, .wake false⟩, ⟨2, .grant⟩, ⟨2, .advance⟩]

/-- D tries to take the write lock. -/
def scenarioD : List Action := [⟨3, .tryAcquire⟩]

/-- What the scenario looks at in a state: the device, and the control
point and last return value of every session. -/
def view (r : Sys × List Event) : osprd_info × List (Pc × Option Int) × List Event :=
  (r.1.d, r.1.ss.map (fun x => (x.pc, x.ret)), r.2)

/-! ## `osprd_process_request` -/

/-- The fields of `struct request` read by the driver, with the values of
the kernel accessors `blk_fs_request(req)` and `rq_data_dir(req)`. -/
structure request where
  fs_request : Bool
  sector : Nat
  current_nr_sectors : Nat
  data_dir : Int
deriving DecidableEq, Repr

/-- `#define SECTOR_SIZE 512` -/
def SECTOR_SIZE : Nat := 512

/-- Conversion of an unsigned value to a 32-bit `int`. -/
def to_int (x : Nat) : Int :=
  if x % 2 ^ 32 < 2 ^ 31 then ((x % 2 ^ 32 : Nat) : Int) else ((x % 2 ^ 32 : Nat) : Int) - 2 ^ 32

/-- What `osprd_process_request` does to the outside: completions reported
with `end_request(req, uptodate)` and the two kinds of `memcpy` between the
data array and the request buffer, each with the `byteOffset` into `d->data`
and the `numBytes` it is called with. -/
inductive Effect where
  | end_request (uptodate : Int)
  /-- `memcpy(req->buffer, d->data + byteOffset, numBytes)`: the data array is read. -/
  | copy_to_buffer (byteOffset numBytes : Int)
  /-- `memcpy(d->data + byteOffset, req->buffer, numBytes)`: the data array is written. -/
  | copy_from_buffer (byteOffset numBytes : Int)
deriving DecidableEq, Repr

/-- `osprd_process_request(d, req)`, as the list of its effects in program
order.  `sbits` is the width of the kernel type `sector_t` (an
`unsigned long` or a 64-bit integer, by kernel configuration); `nsectors` is
the module parameter. -/
def osprd_process_request (sbits : Nat) (nsectors : Int) (req : request) : List Effect :=
  if !req.fs_request then [Effect.end_request 0]
  else
    let byteOffset : Int := to_int ((req.sector * SECTOR_SIZE) % 2 ^ sbits)
    let numBytes : Int := to_int ((req.current_nr_sectors * SECTOR_SIZE) % 2 ^ 32)
    let e1 : List Effect :=
      if (req.sector + req.current_nr_sectors) % 2 ^ sbits > (nsectors % 2 ^ sbits).toNat then
        [Effect.end_request 0]
      else []
    let e2 : List Effect :=
      if req.data_dir = READ then [Effect.copy_to_buffer byteOffset numBytes]
      else if req.data_dir = WRITE then [Effect.copy_from_buffer byteOffset numBytes]
      else [Effect.end_request 0]
    e1 ++ e2 ++ [Effect.end_request 1]

/-! ## States used to illustrate the dead-ticket skip and the ticket partition -/

/-- The first thirteen steps of `fifoSchedule`: 101 has released, ticket 1 is
dead, 103 is still waiting with ticket 2. -/
def skipSchedule : List Action := fifoSchedule.take 13

/-- The state reached by `skipSchedule`. -/
def skipState : Sys :=
  { d := ⟨3, 1, 0, -1, 0, [], [1]⟩
    ss := [⟨101, ⟨0, 3⟩, .idle, some 0⟩,
           ⟨102, ⟨4096, 1⟩, .idle, some (-512)⟩,
           ⟨103, ⟨4096, 1⟩, .waiting 2, none⟩] }

/-- The events of `skipSchedule`. -/
def skipLog : List Event :=
  [.draw 0 0, .grant 0 0 0, .advance 0 0 0 1, .draw 1 1, .draw 2 2, .dead 1 1]

/-- A single writer that has been granted the lock and has not yet run its
final `ticket_tail++`. -/
def grantedSchedule : List Action := [⟨0, .acquire⟩, ⟨0, .draw⟩, ⟨0, .test⟩]

/-- The state reached by `grantedSchedule` for one read-write session. -/
def grantedState : Sys :=
  { d := ⟨1, 0, 1, 101, 0, [], []⟩
    ss := [⟨101, ⟨528384, 3⟩, .granted 0, none⟩] }

/-- The first eleven steps of `fifoSchedule`: 102 has left
`wait_event_interruptible` with `-ERESTARTSYS` and has not yet pushed its
ticket 1 on the dead list. -/
def signalledSchedule : List Action := fifoSchedule.take 11

/-- The state reached by `signalledSchedule`. -/
def signalledState : Sys :=
  { d := ⟨3, 1, 1, 101, 0, [], []⟩
    ss := [⟨101, ⟨528384, 3⟩, .idle, some 0⟩,
           ⟨102, ⟨4096, 1⟩, .signalled 1, none⟩,
           ⟨103, ⟨4096, 1⟩, .waiting 2, none⟩] }

/-! ## A state whose only outstanding ticket is dead -/

/-- Process 101 opens read-write, 102 read-only, 103 read-only, 104
read-write. -/
def deadOnlyOpens : List (Int × file) :=
  [(101, rwFile), (102, roFile), (103, roFile), (104, rwFile)]

/-- 101 takes the write lock with ticket 0; 102 queues with ticket 1 and is
interrupted; 101 releases. -/
def deadOnlySchedule : List Action :=
  [⟨0, .acquire⟩, ⟨0, .draw⟩, ⟨0, .test⟩, ⟨0, .advance⟩,
   ⟨1, .acquire⟩, ⟨1, .draw⟩, ⟨1, .test⟩, ⟨1, .wake true⟩, ⟨1, .markDead⟩,
   ⟨0, .release⟩]

/-- The state reached by `deadOnlySchedule`: no lock is held, `ticket_tail`
is 1, `ticket_head` is 2 and ticket 1 is dead. -/
def deadOnlyState : Sys :=
  { d := ⟨2, 1, 0, -1, 0, [], [1]⟩
    ss := [⟨101, ⟨0, 3⟩, .idle, some 0⟩,
           ⟨102, ⟨4096, 1⟩, .idle, some (-512)⟩,
           ⟨103, ⟨4096, 1⟩, .idle, none⟩,
           ⟨104, ⟨4096, 3⟩, .idle, none⟩] }

/-- A complete blocking acquire by session `i` that has to wait once. -/
def blockingAcquire (i : Nat) : List Action :=
  [⟨i, .acquire⟩, ⟨i, .draw⟩, ⟨i, .test⟩, ⟨i, .wake false⟩, ⟨i, .grant⟩, ⟨i, .advance⟩]

/-! # Theorems -/

/-! ## Basic facts about the helpers -/

theorem read_list_scan_iff (pid : Int) (l : List Int) :
    read_list_scan pid l = true ↔ pid ∈ l := by
  induction l with
  | nil => simp [read_list_scan]
  | cons r rest ih =>
    by_cases h : r = pid
    · simp [read_list_scan, h]
    · have h2 : ¬ pid = r := fun e => h e.symm
      simp [read_list_scan, h, h2, ih]

theorem read_unlink_next_eq (pid x : Int) (l : List Int) (hx : x ≠ pid) :
    read_unlink_next pid (x :: l) = x :: l.erase pid := by
  induction l generalizing x with
  | nil => simp [read_unlink_next]
  | cons y rest ih =>
    by_cases h : y = pid
    · simp [read_unlink_next, h]
    · simp [read_unlink_next, h, ih y h, List.erase_cons_tail, h]

/-- The unlink code of release removes the first node of the current pid. -/
theorem read_list_remove_eq_erase (pid : Int) (l : List Int) :
    read_list_remove pid l = l.erase pid := by
  cases l with
  | nil => simp [read_list_remove]
  | cons r rest =>
    by_cases h : r = pid
    · simp [read_list_remove, h]
    · simp [read_list_remove, h, read_unlink_next_eq pid r rest h, List.erase_cons_tail]

/-- The dead-ticket loop touches only `ticket_tail` and `dead_tix`. -/
theorem wake_loop_frame (fuel : Nat) (d : osprd_info) :
    (wake_loop fuel d).ticket_head = d.ticket_head ∧
    (wake_loop fuel d).ramdisk_WriteLocked = d.ramdisk_WriteLocked ∧
    (wake_loop fuel d).pid_holdingWriteLock = d.pid_holdingWriteLock ∧
    (wake_loop fuel d).num_ReadLocks = d.num_ReadLocks ∧
    (wake_loop fuel d).read_list = d.read_list := by
  induction fuel generalizing d with
  | zero => simp [wake_loop]
  | succ n ih =>
    unfold wake_loop
    split
    · simp
    · split
      · exact ih _
      · split
        · exact ih _
        · simp

/-! ## C1: mutual exclusion -/

/-- C1 (the code breaks the claim).  Mutual exclusion of the write lock and
the reader set does not hold in every reachable state: after reader 101 has
taken a read lock, a release issued through a read-only file that holds no
lock (process 102) lowers `num_ReadLocks` to 0 without unlinking any reader,
and a write try-acquire by process 103 is then granted.  The reached state
has the write lock held by 103 while `read_list` still contains 101. -/
theorem mutual_exclusion_violated :
    ∃ s : Sys, Reachable s ∧
      run (boot [(101, roFile), (102, roFile), (103, rwFile)])
        [⟨0, .tryAcquire⟩, ⟨1, .release⟩, ⟨2, .tryAcquire⟩] = some s ∧
      s.d.ramdisk_WriteLocked = 1 ∧ s.d.pid_holdingWriteLock = 103 ∧
      s.d.read_list = [101] ∧
      ¬ (s.d.ramdisk_WriteLocked ≠ 0 → s.d.read_list = []) := by
  have hrun : run (boot [(101, roFile), (102, roFile), (103, rwFile)])
      [⟨0, .tryAcquire⟩, ⟨1, .release⟩, ⟨2, .tryAcquire⟩] =
      some ⟨⟨0, 0, 1, 103, 0, [101], []⟩,
        [⟨101, ⟨528384, 1⟩, .idle, some 0⟩, ⟨102, ⟨0, 1⟩, .idle, some 0⟩,
         ⟨103, ⟨528384, 3⟩, .idle, some 0⟩]⟩ := rfl
  exact ⟨_, ⟨_, _, hrun⟩, hrun, rfl, rfl, rfl, by decide⟩

/-! ## C2, C3: deadlock self-checks -/

/-- C2.  Whenever the calling process is recorded as the write holder, both
`OSPRDIOCACQUIRE` and `OSPRDIOCTRYACQUIRE` (through a file of either mode)
return `-EDEADLK` in their first step: the device is left as it was (no
ticket drawn, write lock still held by the caller), the file is unchanged and
the session is back outside the driver. -/
theorem self_deadlock_rejected (s : Sys) (i : Nat) (x : Session)
    (hx : s.ss[i]? = some x) (hidle : x.pc = Pc.idle)
    (hw : x.pid = s.d.pid_holdingWriteLock) :
    acquire_deadlock s.d x.filp x.pid = true ∧
    step s ⟨i, .acquire⟩ = some ⟨s.d, s.ss.set i { x with ret := some (-EDEADLK) }⟩ ∧
    ioctl_tryacquire s.d x.filp x.pid = (s.d, x.filp, -EDEADLK) ∧
    step s ⟨i, .tryAcquire⟩ = some ⟨s.d, s.ss.set i { x with ret := some (-EDEADLK) }⟩ := by
  have h1 : acquire_deadlock s.d x.filp x.pid = true := by simp [acquire_deadlock, hw]
  have h2 : ioctl_tryacquire s.d x.filp x.pid = (s.d, x.filp, -EDEADLK) := by
    simp [ioctl_tryacquire, hw]
  refine ⟨h1, ?_, h2, ?_⟩
  · simp [step, hx, sessionStep, hidle, h1]
  · simp [step, hx, sessionStep, hidle, h2]

theorem self_deadlock_rejected_witness :
    step writeHeldSys ⟨0, .acquire⟩ =
      some ⟨writeHeldSys.d, [⟨101, ⟨528384, 3⟩, .idle, some (-EDEADLK)⟩,
        ⟨102, ⟨4096, 1⟩, .idle, none⟩]⟩ :=
  (self_deadlock_rejected writeHeldSys 0 ⟨101, ⟨528384, 3⟩, .idle, some 0⟩ rfl rfl rfl).2.1

/-- C3.  Whenever the calling process is in `read_list` and calls through a
writable file, both `OSPRDIOCACQUIRE` and `OSPRDIOCTRYACQUIRE` return
`-EDEADLK` in their first step, leaving the device (tickets and lock state)
and the file unchanged. -/
theorem reader_write_request_rejected (s : Sys) (i : Nat) (x : Session)
    (hx : s.ss[i]? = some x) (hidle : x.pc = Pc.idle)
    (hwr : filp_writable x.filp = true) (hr : x.pid ∈ s.d.read_list) :
    acquire_deadlock s.d x.filp x.pid = true ∧
    step s ⟨i, .acquire⟩ = some ⟨s.d, s.ss.set i { x with ret := some (-EDEADLK) }⟩ ∧
    ioctl_tryacquire s.d x.filp x.pid = (s.d, x.filp, -EDEADLK) ∧
    step s ⟨i, .tryAcquire⟩ = some ⟨s.d, s.ss.set i { x with ret := some (-EDEADLK) }⟩ := by
  have hscan : read_list_scan x.pid s.d.read_list = true := (read_list_scan_iff _ _).2 hr
  have h1 : acquire_deadlock s.d x.filp x.pid = true := by
    simp [acquire_deadlock, hwr, hscan]
  have h2 : ioctl_tryacquire s.d x.filp x.pid = (s.d, x.filp, -EDEADLK) := by
    simp [ioctl_tryacquire, hwr, hscan]
  refine ⟨h1, ?_, h2, ?_⟩
  · simp [step, hx, sessionStep, hidle, h1]
  · simp [step, hx, sessionStep, hidle, h2]

theorem reader_write_request_rejected_witness :
    step readHeldSys ⟨1, .tryAcquire⟩ =
      some ⟨readHeldSys.d, [⟨101, ⟨528384, 1⟩, .idle, some 0⟩,
        ⟨101, ⟨4096, 3⟩, .idle, some (-EDEADLK)⟩]⟩ :=
  (reader_write_request_rejected readHeldSys 1 ⟨101, ⟨4096, 3⟩, .idle, none⟩
    rfl rfl rfl (by decide)).2.2.2
/-! ## C4, C5, C6: release and disconnect -/

/-- C4 (the code breaks the claim).  A release through a file that holds no
lock is not always refused.  In the state reached after process 101 took the
write lock, session 1 (process 102, writable file) has its lock flag clear, is
not the write holder and is not a reader; its `OSPRDIOCRELEASE` returns 0 and
clears the write lock of 101 (and wipes every flag of the caller's file). -/
theorem release_without_lock_not_refused :
    ∃ (s : Sys) (x : Session), Reachable s ∧ s.ss[1]? = some x ∧ x.pc = Pc.idle ∧
      x.filp.f_flags &&& F_OSPRD_LOCKED = 0 ∧
      x.pid ≠ s.d.pid_holdingWriteLock ∧ x.pid ∉ s.d.read_list ∧
      s.d.ramdisk_WriteLocked = 1 ∧ s.d.pid_holdingWriteLock = 101 ∧
      ioctl_release s.d x.filp x.pid =
        (⟨0, 0, 0, -1, 0, [], []⟩, ⟨0, 3⟩, 0) ∧
      (ioctl_release s.d x.filp x.pid).2.2 ≠ -EINVAL ∧
      (ioctl_release s.d x.filp x.pid).1 ≠ s.d := by
  have hrun : run (boot [(101, rwFile), (102, rwFile)]) [⟨0, .tryAcquire⟩] =
      some ⟨⟨0, 0, 1, 101, 0, [], []⟩,
        [⟨101, ⟨528384, 3⟩, .idle, some 0⟩, ⟨102, ⟨4096, 3⟩, .idle, none⟩]⟩ := rfl
  exact ⟨_, ⟨102, ⟨4096, 3⟩, .idle, none⟩, ⟨_, _, hrun⟩, rfl, rfl, by decide, by decide,
    by decide, rfl, rfl, rfl, by decide, by decide⟩

/-- C5 (the code breaks the claim).  A release by a session that holds a lock
does not always return 0.  Process 101 holds a read lock (flag set, pid in
`read_list`); after a release issued through the lock-free read-only file of
process 102 has lowered `num_ReadLocks` to 0, the release of the real holder
101 is refused with `-EINVAL` and `read_list` keeps its node. -/
theorem release_by_holder_refused :
    ∃ (s : Sys) (x : Session), Reachable s ∧ s.ss[0]? = some x ∧ x.pc = Pc.idle ∧
      x.filp.f_flags &&& F_OSPRD_LOCKED = F_OSPRD_LOCKED ∧
      filp_writable x.filp = false ∧ x.pid ∈ s.d.read_list ∧
      ioctl_release s.d x.filp x.pid = (s.d, x.filp, -EINVAL) ∧
      (ioctl_release s.d x.filp x.pid).2.2 ≠ 0 ∧
      (ioctl_release s.d x.filp x.pid).1.read_list = [101] := by
  have hrun : run (boot [(101, roFile), (102, roFile)])
      [⟨0, .acquire⟩, ⟨0, .draw⟩, ⟨0, .test⟩, ⟨0, .advance⟩, ⟨1, .release⟩] =
      some ⟨⟨1, 1, 0, -1, 0, [101], []⟩,
        [⟨101, ⟨528384, 1⟩, .idle, some 0⟩, ⟨102, ⟨0, 1⟩, .idle, some 0⟩]⟩ := rfl
  exact ⟨_, ⟨101, ⟨528384, 1⟩, .idle, some 0⟩, ⟨_, _, hrun⟩, rfl, rfl, by decide, by decide,
    by decide, rfl, by decide, rfl⟩

/-- What release does for a holder when its guard lets it through: with a
lock recorded on the device (`ramdisk_WriteLocked` set or `num_ReadLocks`
non-zero) the call returns 0; a writable file clears the write flag and the
write holder and keeps the readers; a read-only file in `read_list` loses its
first node and `num_ReadLocks` drops by one.  The ticket fields are kept. -/
theorem ioctl_release_when_recorded (d : osprd_info) (filp : file) (pid : Int)
    (hrec : d.ramdisk_WriteLocked ≠ 0 ∨ d.num_ReadLocks ≠ 0) :
    (ioctl_release d filp pid).2.2 = 0 ∧
    (ioctl_release d filp pid).1.ticket_head = d.ticket_head ∧
    (ioctl_release d filp pid).1.ticket_tail = d.ticket_tail ∧
    (ioctl_release d filp pid).1.dead_tix = d.dead_tix ∧
    (filp_writable filp = true →
      (ioctl_release d filp pid).1.ramdisk_WriteLocked = 0 ∧
      (ioctl_release d filp pid).1.pid_holdingWriteLock = -1 ∧
      (ioctl_release d filp pid).1.read_list = d.read_list ∧
      (ioctl_release d filp pid).1.num_ReadLocks = d.num_ReadLocks) ∧
    (filp_writable filp = false → pid ∈ d.read_list →
      (ioctl_release d filp pid).1.read_list = d.read_list.erase pid ∧
      (ioctl_release d filp pid).1.num_ReadLocks = d.num_ReadLocks - 1 ∧
      (ioctl_release d filp pid).1.ramdisk_WriteLocked = d.ramdisk_WriteLocked ∧
      (ioctl_release d filp pid).1.pid_holdingWriteLock = d.pid_holdingWriteLock) := by
  have hg : ¬ (d.ramdisk_WriteLocked = 0 ∧ d.num_ReadLocks = 0) := by
    rintro ⟨h1, h2⟩
    rcases hrec with h | h
    · exact h h1
    · exact h h2
  by_cases hw : filp_writable filp = true
  · simp [ioctl_release, hg, hw]
  · have hw2 : filp_writable filp = false := by simpa using hw
    refine ⟨by simp [ioctl_release, hg], ?_, ?_, ?_, ?_, ?_⟩
    · simp only [ioctl_release, hg, hw2]; cases d.read_list <;> simp
    · simp only [ioctl_release, hg, hw2]; cases d.read_list <;> simp
    · simp only [ioctl_release, hg, hw2]; cases d.read_list <;> simp
    · intro h; simp [hw2] at h
    · intro _ hmem
      cases hl : d.read_list with
      | nil => simp [hl] at hmem
      | cons r rest =>
        simp [ioctl_release, hg, hw2, hl, read_list_remove_eq_erase]

/-- C6 (the code breaks the claim).  Release followed by disconnect is not
idempotent.  Processes 101 and 102 both hold read locks; 102 releases
(`read_list` becomes `[101]`, `num_ReadLocks` 1) and then closes its file:
`osprd_close_last` finds no node for 102 and still decrements
`num_ReadLocks` to 0, so the device after the second call differs from the
device after the first. -/
theorem release_then_close_decrements_twice :
    ∃ (s : Sys) (x : Session), Reachable s ∧ s.ss[1]? = some x ∧ x.pc = Pc.idle ∧
      (ioctl_release s.d x.filp x.pid).1 = ⟨0, 0, 0, -1, 1, [101], []⟩ ∧
      (ioctl_release s.d x.filp x.pid).2.2 = 0 ∧
      (osprd_close_last (ioctl_release s.d x.filp x.pid).1
        (ioctl_release s.d x.filp x.pid).2.1 x.pid).1 = ⟨0, 0, 0, -1, 0, [101], []⟩ ∧
      (osprd_close_last (ioctl_release s.d x.filp x.pid).1
        (ioctl_release s.d x.filp x.pid).2.1 x.pid).1 ≠ (ioctl_release s.d x.filp x.pid).1 ∧
      run s [⟨1, .release⟩, ⟨1, .close⟩] =
        some ⟨⟨0, 0, 0, -1, 0, [101], []⟩,
          [⟨101, ⟨528384, 1⟩, .idle, some 0⟩, ⟨102, ⟨0, 1⟩, .closed, some 0⟩]⟩ := by
  have hrun : run (boot [(101, roFile), (102, roFile)])
      [⟨0, .tryAcquire⟩, ⟨1, .tryAcquire⟩] =
      some ⟨⟨0, 0, 0, -1, 2, [102, 101], []⟩,
        [⟨101, ⟨528384, 1⟩, .idle, some 0⟩, ⟨102, ⟨528384, 1⟩, .idle, some 0⟩]⟩ := rfl
  exact ⟨_, ⟨102, ⟨528384, 1⟩, .idle, some 0⟩, ⟨_, _, hrun⟩, rfl, rfl, rfl, rfl, rfl,
    by decide, rfl⟩

/-! ## C7: try-acquire -/

theorem lor_land_self (a b : Nat) : (a ||| b) &&& b = b := by
  apply Nat.eq_of_testBit_eq
  intro i
  simp only [Nat.testBit_and, Nat.testBit_or]
  cases a.testBit i <;> cases b.testBit i <;> rfl

/-- C7.  For a caller that passes the deadlock self-check (it is not the
recorded write holder and, for a writable file, not in `read_list`),
`OSPRDIOCTRYACQUIRE` returns 0 exactly when `ticket_head == ticket_tail`, no
write lock is held and, for a writable file, `num_ReadLocks == 0`; in every
other case it returns `-EBUSY`.  On 0 a writable caller becomes the write
holder, a read-only caller is pushed on `read_list` with `num_ReadLocks`
raised by one, and `F_OSPRD_LOCKED` is set in the file's flags. -/
theorem tryacquire_spec (d : osprd_info) (filp : file) (pid : Int)
    (hself : pid ≠ d.pid_holdingWriteLock)
    (hread : filp_writable filp = true → pid ∉ d.read_list) :
    ((ioctl_tryacquire d filp pid).2.2 = 0 ↔
      (d.ticket_head = d.ticket_tail ∧ d.ramdisk_WriteLocked = 0 ∧
        (filp_writable filp = true → d.num_ReadLocks = 0))) ∧
    ((ioctl_tryacquire d filp pid).2.2 ≠ 0 → (ioctl_tryacquire d filp pid).2.2 = -EBUSY) ∧
    ((ioctl_tryacquire d filp pid).2.2 = 0 → filp_writable filp = true →
      (ioctl_tryacquire d filp pid).1 =
        { d with ramdisk_WriteLocked := 1, pid_holdingWriteLock := pid }) ∧
    ((ioctl_tryacquire d filp pid).2.2 = 0 → filp_writable filp = false →
      (ioctl_tryacquire d filp pid).1 =
        { d with num_ReadLocks := d.num_ReadLocks + 1, read_list := pid :: d.read_list }) ∧
    ((ioctl_tryacquire d filp pid).2.2 = 0 →
      (ioctl_tryacquire d filp pid).2.1.f_flags &&& F_OSPRD_LOCKED = F_OSPRD_LOCKED ∧
      (ioctl_tryacquire d filp pid).2.1.f_mode = filp.f_mode) := by
  by_cases hw : filp_writable filp = true
  · have hscan : read_list_scan pid d.read_list = false := by
      cases h : read_list_scan pid d.read_list with
      | false => rfl
      | true => exact absurd ((read_list_scan_iff _ _).1 h) (hread hw)
    by_cases hb : d.num_ReadLocks ≠ 0 ∨ d.ramdisk_WriteLocked ≠ 0 ∨ d.ticket_head ≠ d.ticket_tail
    · have hne : ¬ (d.ticket_head = d.ticket_tail ∧ d.ramdisk_WriteLocked = 0 ∧
          (filp_writable filp = true → d.num_ReadLocks = 0)) := by
        rintro ⟨h1, h2, h3⟩
        rcases hb with h | h | h
        · exact h (h3 hw)
        · exact h h2
        · exact h h1
      simp only [ioctl_tryacquire, if_neg hself, hw, hscan, if_pos hb]
      simp [EBUSY]
      intro h1 h2 h3
      exact hne ⟨h1, h2, fun _ => h3⟩
    · have hb2 := hb
      simp only [not_or, not_not] at hb2
      obtain ⟨h1, h2, h3⟩ := hb2
      simp only [ioctl_tryacquire, if_neg hself, hw, hscan, if_neg hb]
      simp [grant_write, h1, h2, h3, lor_land_self]
  · have hw2 : filp_writable filp = false := by simpa using hw
    by_cases hb : d.ramdisk_WriteLocked ≠ 0 ∨ d.ticket_head ≠ d.ticket_tail
    · have hne : ¬ (d.ticket_head = d.ticket_tail ∧ d.ramdisk_WriteLocked = 0) := by
        rintro ⟨h1, h2⟩
        rcases hb with h | h
        · exact h h2
        · exact h h1
      simp only [ioctl_tryacquire, if_neg hself, hw2, if_pos hb]
      simp [EBUSY]
      intro h1 h2
      exact absurd ⟨h1, h2⟩ hne
    · have hb2 := hb
      simp only [not_or, not_not] at hb2
      obtain ⟨h1, h2⟩ := hb2
      simp only [ioctl_tryacquire, if_neg hself, hw2, if_neg hb]
      simp [grant_read, h1, h2, lor_land_self]
      cases d.read_list <;> rfl

theorem tryacquire_spec_witness :
    ((204 : Int) ≠ (osprd_setup zeroed).pid_holdingWriteLock) ∧
    (ioctl_tryacquire (osprd_setup zeroed) (osprd_open roFile) 204).2.2 = 0 ∧
    (ioctl_tryacquire (osprd_setup zeroed) (osprd_open roFile) 204).1 =
      { osprd_setup zeroed with num_ReadLocks := 1, read_list := [204] } :=
  ⟨by decide,
   (tryacquire_spec (osprd_setup zeroed) (osprd_open roFile) 204 (by decide)
      (by decide)).1.2 (by decide),
   (tryacquire_spec (osprd_setup zeroed) (osprd_open roFile) 204 (by decide)
      (by decide)).2.2.2.1 (by decide) (by decide)⟩

/-! ## C9: the wake predicate -/

/-- C9.  `osprd_wake_cond(d, dir, t)` first runs the dead-ticket skip and
then returns a non-zero value exactly when, with `ticket_tail` read after the
skip: for `dir == READ`, no write lock is held and `ticket_tail == t`; for
`dir == WRITE`, `num_ReadLocks == 0`, no write lock is held and
`ticket_tail == t`.  The write flag, the write holder, `num_ReadLocks`,
`read_list` and `ticket_head` come out unchanged. -/
theorem wake_cond_spec (d : osprd_info) (dir : Int) (t : Nat) :
    (osprd_wake_cond d dir t).1 = skip_dead d ∧
    ((osprd_wake_cond d READ t).2 ≠ 0 ↔
      (d.ramdisk_WriteLocked = 0 ∧ (skip_dead d).ticket_tail = t)) ∧
    ((osprd_wake_cond d WRITE t).2 ≠ 0 ↔
      (d.num_ReadLocks = 0 ∧ d.ramdisk_WriteLocked = 0 ∧ (skip_dead d).ticket_tail = t)) ∧
    (osprd_wake_cond d dir t).1.ramdisk_WriteLocked = d.ramdisk_WriteLocked ∧
    (osprd_wake_cond d dir t).1.pid_holdingWriteLock = d.pid_holdingWriteLock ∧
    (osprd_wake_cond d dir t).1.num_ReadLocks = d.num_ReadLocks ∧
    (osprd_wake_cond d dir t).1.read_list = d.read_list ∧
    (osprd_wake_cond d dir t).1.ticket_head = d.ticket_head := by
  obtain ⟨f1, f2, f3, f4, f5⟩ := wake_loop_frame d.dead_tix.length d
  have hfst : (osprd_wake_cond d dir t).1 = skip_dead d := rfl
  refine ⟨hfst, ?_, ?_, ?_, ?_, ?_, ?_, ?_⟩
  · simp only [osprd_wake_cond, if_true, skip_dead, f2]
    split <;> simp_all
  · have hne : ¬ (WRITE = READ) := by decide
    simp only [osprd_wake_cond, if_neg hne, skip_dead, f2, f4]
    split <;> simp_all
  · rw [hfst]; exact f2
  · rw [hfst]; exact f3
  · rw [hfst]; exact f4
  · rw [hfst]; exact f5
  · rw [hfst]; exact f1

/-! ## C10: interrupted acquire -/

/-- C10.  A waiter with ticket `t` whose wake predicate comes out false while
a signal is pending leaves `wait_event_interruptible` towards the
`-ERESTARTSYS` branch; that evaluation changes no lock-holder field and not
the file.  The branch itself, run on whatever device state `e` the other
sessions have produced meanwhile, returns `-ERESTARTSYS`, pushes `t` on
`dead_tix` and changes nothing else on the device; the file (and with it the
lock-held flag) is as before, and the session is outside the driver without
having been granted the lock. -/
theorem interrupted_acquire (d : osprd_info) (x : Session) (t : Nat)
    (hpc : x.pc = Pc.waiting t)
    (hfalse : (osprd_wake_cond d (wait_dir x.filp) t).2 = 0) :
    sessionStep d x (.wake true) = some (skip_dead d, { x with pc := Pc.signalled t }) ∧
    (skip_dead d).ramdisk_WriteLocked = d.ramdisk_WriteLocked ∧
    (skip_dead d).pid_holdingWriteLock = d.pid_holdingWriteLock ∧
    (skip_dead d).num_ReadLocks = d.num_ReadLocks ∧
    (skip_dead d).read_list = d.read_list ∧
    (∀ e : osprd_info,
      sessionStep e { x with pc := Pc.signalled t } .markDead =
        some ({ e with dead_tix := t :: e.dead_tix },
              { x with pc := Pc.idle, ret := some (-ERESTARTSYS) })) := by
  obtain ⟨_, f2, f3, f4, f5⟩ := wake_loop_frame d.dead_tix.length d
  refine ⟨?_, f2, f3, f4, f5, ?_⟩
  · simp only [sessionStep, hpc]
    simp only [hfalse]
    simp [osprd_wake_cond]
  · intro e
    simp [sessionStep, acquire_mark_dead]

theorem interrupted_acquire_witness :
    sessionStep ⟨2, 1, 1, 101, 0, [], []⟩ ⟨102, ⟨4096, 1⟩, .waiting 1, none⟩ (.wake true) =
      some (⟨2, 1, 1, 101, 0, [], []⟩, ⟨102, ⟨4096, 1⟩, .signalled 1, none⟩) ∧
    sessionStep ⟨2, 1, 1, 101, 0, [], []⟩ ⟨102, ⟨4096, 1⟩, .signalled 1, none⟩ .markDead =
      some (⟨2, 1, 1, 101, 0, [], [1]⟩, ⟨102, ⟨4096, 1⟩, .idle, some (-ERESTARTSYS)⟩) :=
  ⟨(interrupted_acquire ⟨2, 1, 1, 101, 0, [], []⟩ ⟨102, ⟨4096, 1⟩, .waiting 1, none⟩ 1
      rfl (by decide)).1,
   (interrupted_acquire ⟨2, 1, 1, 101, 0, [], []⟩ ⟨102, ⟨4096, 1⟩, .waiting 1, none⟩ 1
      rfl (by decide)).2.2.2.2.2 ⟨2, 1, 1, 101, 0, [], []⟩⟩

/-! ## C8: ticket order -/

theorem drawCount_append (l m : List Event) :
    drawCount (l ++ m) = drawCount l + drawCount m := by
  induction l with
  | nil => simp [drawCount]
  | cons e rest ih =>
    cases e <;> simp [drawCount, ih]
    omega

theorem grantsOf_append (l m : List Event) :
    grantsOf (l ++ m) = grantsOf l ++ grantsOf m := by
  induction l with
  | nil => simp [grantsOf]
  | cons e rest ih => cases e <;> simp [grantsOf, ih]

theorem deadOf_append (l m : List Event) :
    deadOf (l ++ m) = deadOf l ++ deadOf m := by
  induction l with
  | nil => simp [deadOf]
  | cons e rest ih => cases e <;> simp [deadOf, ih]

/-- A ticket draw keeps the invariant. -/
theorem TInv.draw_step {h tl : Nat} {dd : List Nat} {sl : Nat → Option (Nat × Stage)}
    {log : List Event} (I : TInv h tl dd sl log) (i : Nat) (hi : sl i = none)
    (hh : h + 1 < 2 ^ 32) :
    TInv (h + 1) tl dd (Function.update sl i (some (h, Stage.queued)))
      (log ++ [Event.draw i h]) := by
  have hup : ∀ j t st, Function.update sl i (some (h, Stage.queued)) j = some (t, st) →
      (j = i ∧ t = h ∧ st = Stage.queued) ∨ (j ≠ i ∧ sl j = some (t, st)) := by
    intro j t st hj
    by_cases hji : j = i
    · subst hji
      simp at hj
      exact Or.inl ⟨rfl, hj.1.symm, hj.2.symm⟩
    · rw [Function.update_noteq hji] at hj
      exact Or.inr ⟨hji, hj⟩
  constructor
  · simp [drawCount_append, drawCount, I.head_eq]
  · exact hh
  · have := I.tail_le_head; omega
  · intro j t st hj
    rcases hup j t st hj with ⟨_, rfl, _⟩ | ⟨_, hs⟩
    · have := I.tail_le_head; omega
    · have := I.live_range j t st hs; omega
  · intro j k t st st2 hj hk
    rcases hup j t st hj with ⟨rfl, rfl, _⟩ | ⟨hji, hs⟩
    · rcases hup k _ st2 hk with ⟨rfl, _, _⟩ | ⟨_, hs2⟩
      · rfl
      · have := I.live_range k _ st2 hs2; omega
    · rcases hup k t st2 hk with ⟨rfl, rfl, _⟩ | ⟨_, hs2⟩
      · have := I.live_range j _ st hs; omega
      · exact I.live_inj j k t st st2 hs hs2
  · intro k hk
    have := I.dead_range k hk; omega
  · exact I.dead_nodup
  · intro j t st hj hmem
    rcases hup j t st hj with ⟨_, rfl, _⟩ | ⟨_, hs⟩
    · have := I.dead_range _ hmem; omega
    · exact I.dead_live j t st hs hmem
  · intro j t st hj hq
    rcases hup j t st hj with ⟨_, _, rfl⟩ | ⟨_, hs⟩
    · exact absurd rfl hq
    · exact I.served_tail j t st hs hq
  · intro a t b hmem
    simp at hmem
    exact I.grant_ok a t b hmem
  · intro a t b c hmem
    simp at hmem
    exact I.adv_ok a t b c hmem
  · simpa [grantsOf_append, grantsOf] using I.sorted
  · intro g hg
    simp [grantsOf_append, grantsOf] at hg
    rcases I.grants_bound g hg with hlt | ⟨he, j, hj⟩
    · exact Or.inl hlt
    · refine Or.inr ⟨he, j, ?_⟩
      have hji : j ≠ i := by
        intro e; rw [e, hi] at hj; exact absurd hj (by simp)
      rw [Function.update_noteq hji]; exact hj
  · intro j t hj
    rcases hup j t _ hj with ⟨_, _, hq⟩ | ⟨_, hs⟩
    · exact absurd hq (by decide)
    · simpa [grantsOf_append, grantsOf] using I.granted_logged j t hs
  · intro k hk
    simpa [deadOf_append, deadOf] using I.dead_logged k hk
  · intro k hk
    simpa [grantsOf_append, grantsOf, deadOf_append, deadOf] using I.passed k hk
  · intro k hk1 hk2
    by_cases hkh : k = h
    · exact Or.inl ⟨i, Stage.queued, by simp [hkh]⟩
    · rcases I.complete k hk1 (by omega) with ⟨j, st, hj⟩ | hd
      · refine Or.inl ⟨j, st, ?_⟩
        have hji : j ≠ i := by
          intro e; rw [e, hi] at hj; exact absurd hj (by simp)
        rw [Function.update_noteq hji]; exact hj
      · exact Or.inr hd

theorem update_slot_cases (sl : Nat → Option (Nat × Stage)) (i : Nat)
    (v : Option (Nat × Stage)) (j : Nat) (w : Nat × Stage)
    (hj : Function.update sl i v j = some w) :
    (j = i ∧ v = some w) ∨ (j ≠ i ∧ sl j = some w) := by
  by_cases hji : j = i
  · subst hji
    simp at hj
    exact Or.inl ⟨rfl, hj⟩
  · rw [Function.update_noteq hji] at hj
    exact Or.inr ⟨hji, hj⟩

/-- Moving the holder of ticket `t = tail` to a later stage without an event
(the wait condition came out true) keeps the invariant. -/
theorem TInv.wake_step {h tl : Nat} {dd : List Nat} {sl : Nat → Option (Nat × Stage)}
    {log : List Event} (I : TInv h tl dd sl log) (i t : Nat)
    (hi : sl i = some (t, Stage.queued)) (ht : tl = t) :
    TInv h tl dd (Function.update sl i (some (t, Stage.woken))) log := by
  have hup : ∀ j u st, Function.update sl i (some (t, Stage.woken)) j = some (u, st) →
      (j = i ∧ u = t ∧ st = Stage.woken) ∨ (j ≠ i ∧ sl j = some (u, st)) := by
    intro j u st hj
    rcases update_slot_cases sl i _ j _ hj with ⟨e, hv⟩ | hr
    · simp at hv
      exact Or.inl ⟨e, hv.1.symm, hv.2.symm⟩
    · exact Or.inr hr
  constructor
  · exact I.head_eq
  · exact I.head_lt
  · exact I.tail_le_head
  · intro j u st hj
    rcases hup j u st hj with ⟨_, rfl, _⟩ | ⟨_, hs⟩
    · exact I.live_range i _ _ hi
    · exact I.live_range j u st hs
  · intro j k u st st2 hj hk
    rcases hup j u st hj with ⟨rfl, rfl, _⟩ | ⟨hji, hs⟩
    · rcases hup k _ st2 hk with ⟨rfl, _, _⟩ | ⟨_, hs2⟩
      · rfl
      · exact I.live_inj _ k _ _ st2 hi hs2
    · rcases hup k u st2 hk with ⟨rfl, rfl, _⟩ | ⟨_, hs2⟩
      · exact I.live_inj j _ _ st _ hs hi
      · exact I.live_inj j k u st st2 hs hs2
  · exact I.dead_range
  · exact I.dead_nodup
  · intro j u st hj
    rcases hup j u st hj with ⟨_, rfl, _⟩ | ⟨_, hs⟩
    · exact I.dead_live i _ _ hi
    · exact I.dead_live j u st hs
  · intro j u st hj hq
    rcases hup j u st hj with ⟨_, rfl, _⟩ | ⟨_, hs⟩
    · exact ht.symm
    · exact I.served_tail j u st hs hq
  · exact I.grant_ok
  · exact I.adv_ok
  · exact I.sorted
  · intro g hg
    rcases I.grants_bound g hg with hlt | ⟨he, j, hj⟩
    · exact Or.inl hlt
    · refine Or.inr ⟨he, j, ?_⟩
      have hji : j ≠ i := by
        intro e; rw [e, hi] at hj; simp at hj
      rw [Function.update_noteq hji]; exact hj
  · intro j u hj
    rcases hup j u _ hj with ⟨_, _, hq⟩ | ⟨_, hs⟩
    · exact absurd hq (by decide)
    · exact I.granted_logged j u hs
  · exact I.dead_logged
  · exact I.passed
  · intro k hk1 hk2
    rcases I.complete k hk1 hk2 with ⟨j, st, hj⟩ | hd
    · by_cases hji : j = i
      · rw [hji, hi] at hj
        simp at hj
        exact Or.inl ⟨i, Stage.woken, by simp [← hj.1]⟩
      · exact Or.inl ⟨j, st, by rw [Function.update_noteq hji]; exact hj⟩
    · exact Or.inr hd

/-- A grant to the holder of ticket `t = tail` keeps the invariant. -/
theorem TInv.grant_step {h tl : Nat} {dd : List Nat} {sl : Nat → Option (Nat × Stage)}
    {log : List Event} (I : TInv h tl dd sl log) (i t : Nat) (st0 : Stage)
    (hi : sl i = some (t, st0)) (hst : st0 ≠ Stage.granted) (ht : tl = t) :
    TInv h tl dd (Function.update sl i (some (t, Stage.granted)))
      (log ++ [Event.grant i t tl]) := by
  have hup : ∀ j u st, Function.update sl i (some (t, Stage.granted)) j = some (u, st) →
      (j = i ∧ u = t ∧ st = Stage.granted) ∨ (j ≠ i ∧ sl j = some (u, st)) := by
    intro j u st hj
    rcases update_slot_cases sl i _ j _ hj with ⟨e, hv⟩ | hr
    · simp at hv
      exact Or.inl ⟨e, hv.1.symm, hv.2.symm⟩
    · exact Or.inr hr
  have hold : ∀ g ∈ grantsOf log, g < tl := by
    intro g hg
    rcases I.grants_bound g hg with hlt | ⟨he, j, hj⟩
    · exact hlt
    · exfalso
      have hji : j = i := I.live_inj j i g _ _ hj (by rw [hi, he, ht])
      rw [hji, hi] at hj
      simp at hj
      exact hst hj.2
  constructor
  · simp [drawCount_append, drawCount, I.head_eq]
  · exact I.head_lt
  · exact I.tail_le_head
  · intro j u st hj
    rcases hup j u st hj with ⟨_, rfl, _⟩ | ⟨_, hs⟩
    · exact I.live_range i _ _ hi
    · exact I.live_range j u st hs
  · intro j k u st st2 hj hk
    rcases hup j u st hj with ⟨rfl, rfl, _⟩ | ⟨hji, hs⟩
    · rcases hup k _ st2 hk with ⟨rfl, _, _⟩ | ⟨_, hs2⟩
      · rfl
      · exact I.live_inj _ k _ _ st2 hi hs2
    · rcases hup k u st2 hk with ⟨rfl, rfl, _⟩ | ⟨_, hs2⟩
      · exact I.live_inj j _ _ st _ hs hi
      · exact I.live_inj j k u st st2 hs hs2
  · exact I.dead_range
  · exact I.dead_nodup
  · intro j u st hj
    rcases hup j u st hj with ⟨_, rfl, _⟩ | ⟨_, hs⟩
    · exact I.dead_live i _ _ hi
    · exact I.dead_live j u st hs
  · intro j u st hj hq
    rcases hup j u st hj with ⟨_, rfl, _⟩ | ⟨_, hs⟩
    · exact ht.symm
    · exact I.served_tail j u st hs hq
  · intro a u b hmem
    simp at hmem
    rcases hmem with hmem | ⟨_, rfl, rfl⟩
    · exact I.grant_ok a u b hmem
    · exact ht
  · intro a u b c hmem
    simp at hmem
    exact I.adv_ok a u b c hmem
  · simp only [grantsOf_append, grantsOf, List.pairwise_append]
    refine ⟨I.sorted, by simp, ?_⟩
    intro a ha b hb
    simp at hb
    subst hb
    have := hold a ha
    omega
  · intro g hg
    simp [grantsOf_append, grantsOf] at hg
    rcases hg with hg | rfl
    · exact Or.inl (hold g hg)
    · exact Or.inr ⟨ht.symm, i, by simp⟩
  · intro j u hj
    simp only [grantsOf_append, grantsOf, List.mem_append, List.mem_singleton]
    rcases hup j u _ hj with ⟨_, rfl, _⟩ | ⟨_, hs⟩
    · exact Or.inr rfl
    · exact Or.inl (I.granted_logged j u hs)
  · intro k hk
    simpa [deadOf_append, deadOf] using I.dead_logged k hk
  · intro k hk
    rcases I.passed k hk with h1 | h1
    · exact Or.inl (by simp [grantsOf_append, h1])
    · exact Or.inr (by simpa [deadOf_append, deadOf] using h1)
  · intro k hk1 hk2
    rcases I.complete k hk1 hk2 with ⟨j, st, hj⟩ | hd
    · by_cases hji : j = i
      · rw [hji, hi] at hj
        simp at hj
        exact Or.inl ⟨i, Stage.granted, by simp [← hj.1]⟩
      · exact Or.inl ⟨j, st, by rw [Function.update_noteq hji]; exact hj⟩
    · exact Or.inr hd

/-- One iteration of the dead-ticket loop that finds `ticket_tail` in the
list keeps the invariant. -/
theorem TInv.skip_one {h tl : Nat} {dd : List Nat} {sl : Nat → Option (Nat × Stage)}
    {log : List Event} (I : TInv h tl dd sl log) (hmem : tl ∈ dd) :
    TInv h (tl + 1) (dd.erase tl) sl log := by
  have hlive : ∀ j t st, sl j = some (t, st) → t ≠ tl := by
    intro j t st hj e
    exact I.dead_live j t st hj (e ▸ hmem)
  constructor
  · exact I.head_eq
  · exact I.head_lt
  · have := I.dead_range tl hmem; omega
  · intro j t st hj
    have h1 := I.live_range j t st hj
    have h2 := hlive j t st hj
    omega
  · exact I.live_inj
  · intro k hk
    have h1 := (I.dead_nodup.mem_erase_iff).1 hk
    have h2 := I.dead_range k h1.2
    have h3 := h1.1
    omega
  · exact I.dead_nodup.erase tl
  · intro j t st hj hk
    exact I.dead_live j t st hj (List.mem_of_mem_erase hk)
  · intro j t st hj hq
    exact absurd (I.served_tail j t st hj hq) (hlive j t st hj)
  · exact I.grant_ok
  · exact I.adv_ok
  · exact I.sorted
  · intro g hg
    rcases I.grants_bound g hg with hlt | ⟨he, j, hj⟩
    · exact Or.inl (by omega)
    · exact absurd he (hlive j g _ hj)
  · exact I.granted_logged
  · intro k hk
    exact I.dead_logged k (List.mem_of_mem_erase hk)
  · intro k hk
    by_cases hkt : k = tl
    · exact Or.inr (hkt ▸ I.dead_logged tl hmem)
    · exact I.passed k (by omega)
  · intro k hk1 hk2
    rcases I.complete k (by omega) hk2 with hs | hd
    · exact Or.inl hs
    · exact Or.inr ((List.mem_erase_of_ne (by omega)).2 hd)

/-- The `-ERESTARTSYS` branch of a queued waiter keeps the invariant. -/
theorem TInv.dead_step {h tl : Nat} {dd : List Nat} {sl : Nat → Option (Nat × Stage)}
    {log : List Event} (I : TInv h tl dd sl log) (i t : Nat)
    (hi : sl i = some (t, Stage.queued)) :
    TInv h tl (t :: dd) (Function.update sl i none) (log ++ [Event.dead i t]) := by
  have hup : ∀ j u st, Function.update sl i none j = some (u, st) →
      j ≠ i ∧ sl j = some (u, st) := by
    intro j u st hj
    rcases update_slot_cases sl i _ j _ hj with ⟨_, hv⟩ | hr
    · simp at hv
    · exact hr
  constructor
  · simp [drawCount_append, drawCount, I.head_eq]
  · exact I.head_lt
  · exact I.tail_le_head
  · intro j u st hj
    exact I.live_range j u st (hup j u st hj).2
  · intro j k u st st2 hj hk
    exact I.live_inj j k u st st2 (hup j u st hj).2 (hup k u st2 hk).2
  · intro k hk
    simp at hk
    rcases hk with rfl | hk
    · exact I.live_range i _ _ hi
    · exact I.dead_range k hk
  · exact List.nodup_cons.2 ⟨I.dead_live i t _ hi, I.dead_nodup⟩
  · intro j u st hj hmem
    obtain ⟨hji, hs⟩ := hup j u st hj
    simp at hmem
    rcases hmem with rfl | hmem
    · exact hji (I.live_inj j i _ _ _ hs hi)
    · exact I.dead_live j u st hs hmem
  · intro j u st hj hq
    exact I.served_tail j u st (hup j u st hj).2 hq
  · intro a u b hmem
    simp at hmem
    exact I.grant_ok a u b hmem
  · intro a u b c hmem
    simp at hmem
    exact I.adv_ok a u b c hmem
  · simpa [grantsOf_append, grantsOf] using I.sorted
  · intro g hg
    simp [grantsOf_append, grantsOf] at hg
    rcases I.grants_bound g hg with hlt | ⟨he, j, hj⟩
    · exact Or.inl hlt
    · refine Or.inr ⟨he, j, ?_⟩
      have hji : j ≠ i := by
        intro e; rw [e, hi] at hj; simp at hj
      rw [Function.update_noteq hji]; exact hj
  · intro j u hj
    simpa [grantsOf_append, grantsOf] using I.granted_logged j u (hup j u _ hj).2
  · intro k hk
    simp only [deadOf_append, deadOf, List.mem_append, List.mem_singleton]
    simp at hk
    rcases hk with rfl | hk
    · exact Or.inr rfl
    · exact Or.inl (I.dead_logged k hk)
  · intro k hk
    rcases I.passed k hk with h1 | h1
    · exact Or.inl (by simpa [grantsOf_append, grantsOf] using h1)
    · exact Or.inr (by simp [deadOf_append, h1])
  · intro k hk1 hk2
    rcases I.complete k hk1 hk2 with ⟨j, st, hj⟩ | hd
    · by_cases hji : j = i
      · rw [hji, hi] at hj
        simp at hj
        exact Or.inr (by simp [hj.1])
      · exact Or.inl ⟨j, st, by rw [Function.update_noteq hji]; exact hj⟩
    · exact Or.inr (List.mem_cons_of_mem _ hd)

/-- The final `ticket_tail++` of a granted session keeps the invariant. -/
theorem TInv.advance_step {h tl : Nat} {dd : List Nat} {sl : Nat → Option (Nat × Stage)}
    {log : List Event} (I : TInv h tl dd sl log) (i t : Nat)
    (hi : sl i = some (t, Stage.granted)) :
    t = tl ∧
    TInv h (tl + 1) dd (Function.update sl i none)
      (log ++ [Event.advance i t tl (tl + 1)]) := by
  have htl : t = tl := I.served_tail i t _ hi (by decide)
  refine ⟨htl, ?_⟩
  have hup : ∀ j u st, Function.update sl i none j = some (u, st) →
      j ≠ i ∧ sl j = some (u, st) := by
    intro j u st hj
    rcases update_slot_cases sl i _ j _ hj with ⟨_, hv⟩ | hr
    · simp at hv
    · exact hr
  have hother : ∀ j u st, j ≠ i → sl j = some (u, st) → u ≠ tl := by
    intro j u st hji hs e
    exact hji (I.live_inj j i u st _ hs (by rw [hi, e, htl]))
  constructor
  · simp [drawCount_append, drawCount, I.head_eq]
  · exact I.head_lt
  · have := I.live_range i t _ hi; omega
  · intro j u st hj
    obtain ⟨hji, hs⟩ := hup j u st hj
    have h1 := I.live_range j u st hs
    have h2 := hother j u st hji hs
    omega
  · intro j k u st st2 hj hk
    exact I.live_inj j k u st st2 (hup j u st hj).2 (hup k u st2 hk).2
  · intro k hk
    have h1 := I.dead_range k hk
    have h2 : k ≠ tl := by
      intro e
      exact I.dead_live i t _ hi (by rw [htl, ← e]; exact hk)
    omega
  · exact I.dead_nodup
  · intro j u st hj
    exact I.dead_live j u st (hup j u st hj).2
  · intro j u st hj hq
    obtain ⟨hji, hs⟩ := hup j u st hj
    exact absurd (I.served_tail j u st hs hq) (hother j u st hji hs)
  · intro a u b hmem
    simp at hmem
    exact I.grant_ok a u b hmem
  · intro a u b c hmem
    simp at hmem
    rcases hmem with hmem | ⟨_, rfl, rfl, rfl⟩
    · exact I.adv_ok a u b c hmem
    · exact ⟨htl.symm, by rw [htl]⟩
  · simpa [grantsOf_append, grantsOf] using I.sorted
  · intro g hg
    simp [grantsOf_append, grantsOf] at hg
    rcases I.grants_bound g hg with hlt | ⟨he, _⟩
    · exact Or.inl (by omega)
    · exact Or.inl (by omega)
  · intro j u hj
    simpa [grantsOf_append, grantsOf] using I.granted_logged j u (hup j u _ hj).2
  · intro k hk
    simpa [deadOf_append, deadOf] using I.dead_logged k hk
  · intro k hk
    by_cases hkt : k = tl
    · refine Or.inl ?_
      have := I.granted_logged i t hi
      simpa [grantsOf_append, grantsOf, hkt, ← htl] using this
    · rcases I.passed k (by omega) with h1 | h1
      · exact Or.inl (by simpa [grantsOf_append, grantsOf] using h1)
      · exact Or.inr (by simpa [deadOf_append, deadOf] using h1)
  · intro k hk1 hk2
    rcases I.complete k (by omega) hk2 with ⟨j, st, hj⟩ | hd
    · by_cases hji : j = i
      · rw [hji, hi] at hj
        simp at hj
        omega
      · exact Or.inl ⟨j, st, by rw [Function.update_noteq hji]; exact hj⟩
    · exact Or.inr hd

theorem dead_unlink_next_eq (tail x : Nat) (l : List Nat) (hx : x ≠ tail) :
    dead_unlink_next tail (x :: l) =
      if tail ∈ l then some (x :: l.erase tail) else none := by
  induction l generalizing x with
  | nil => simp [dead_unlink_next]
  | cons y rest ih =>
    by_cases h : y = tail
    · subst h
      simp [dead_unlink_next]
    · have h2 : ¬ tail = y := fun e => h e.symm
      rw [dead_unlink_next, if_neg h, ih y h]
      by_cases hm : tail ∈ rest
      · simp [hm, h, h2, List.erase_cons_tail]
      · simp [hm, h2]

/-- One iteration of the dead-ticket loop: when `ticket_tail` occurs in
`dead_tix` its first node is unlinked and `ticket_tail` is incremented,
otherwise the loop is left. -/
theorem wake_loop_succ (n : Nat) (d : osprd_info) :
    wake_loop (n + 1) d =
      if d.ticket_tail ∈ d.dead_tix then
        wake_loop n { d with dead_tix := d.dead_tix.erase d.ticket_tail
                             ticket_tail := (d.ticket_tail + 1) % 2 ^ 32 }
      else d := by
  rw [wake_loop]
  cases hl : d.dead_tix with
  | nil => simp
  | cons x rest =>
    by_cases hx : x = d.ticket_tail
    · simp [hx]
    · have hx2 : ¬ d.ticket_tail = x := fun e => hx e.symm
      simp only [if_neg hx, dead_unlink_next_eq _ _ _ hx]
      by_cases hm : d.ticket_tail ∈ rest
      · simp [hm, hx, hx2, List.erase_cons_tail]
      · simp [hm, hx2]

/-- With at least `dead_tix.length` units of fuel the loop has really ended:
`ticket_tail` is not in the list that is left. -/
theorem wake_loop_exit (n : Nat) (d : osprd_info) (hn : d.dead_tix.length ≤ n) :
    (wake_loop n d).ticket_tail ∉ (wake_loop n d).dead_tix := by
  induction n generalizing d with
  | zero =>
    have : d.dead_tix = [] := List.length_eq_zero.1 (Nat.le_zero.1 hn)
    simp [wake_loop, this]
  | succ n ih =>
    rw [wake_loop_succ]
    by_cases hm : d.ticket_tail ∈ d.dead_tix
    · rw [if_pos hm]
      apply ih
      simp only [List.length_erase_of_mem hm]
      omega
    · rw [if_neg hm]; exact hm

/-- The dead-ticket loop keeps the ticket invariant. -/
theorem wake_loop_inv (n : Nat) (d : osprd_info) (sl : Nat → Option (Nat × Stage))
    (log : List Event) (I : TInv d.ticket_head d.ticket_tail d.dead_tix sl log) :
    TInv (wake_loop n d).ticket_head (wake_loop n d).ticket_tail (wake_loop n d).dead_tix
      sl log := by
  induction n generalizing d with
  | zero => simpa [wake_loop] using I
  | succ n ih =>
    rw [wake_loop_succ]
    by_cases hm : d.ticket_tail ∈ d.dead_tix
    · rw [if_pos hm]
      apply ih
      have h1 := I.dead_range _ hm
      have h2 := I.head_lt
      have h3 : (d.ticket_tail + 1) % 2 ^ 32 = d.ticket_tail + 1 := Nat.mod_eq_of_lt (by omega)
      simp only [h3]
      exact I.skip_one hm
    · rw [if_neg hm]; exact I

theorem slotOf_set (s : Sys) (i : Nat) (x y : Session) (d : osprd_info)
    (hx : s.ss[i]? = some x) :
    slotOf ⟨d, s.ss.set i y⟩ = Function.update (slotOf s) i y.pc.slot := by
  funext j
  have hlt : i < s.ss.length := by
    rcases List.getElem?_eq_some_iff.1 hx with ⟨h, _⟩
    exact h
  by_cases hji : j = i
  · subst hji
    simp [slotOf, List.getElem?_set, hlt]
  · have hij : ¬ i = j := fun e => hji e.symm
    rw [Function.update_noteq hji]
    simp [slotOf, List.getElem?_set, hij]

theorem slotOf_self (s : Sys) (i : Nat) (x : Session) (hx : s.ss[i]? = some x) :
    slotOf s i = x.pc.slot := by
  simp [slotOf, hx]

/-! Ticket fields are not written by the non-blocking commands and grants. -/

theorem acquire_grant_frame (d : osprd_info) (filp : file) (pid : Int) :
    (acquire_grant d filp pid).1.ticket_head = d.ticket_head ∧
    (acquire_grant d filp pid).1.ticket_tail = d.ticket_tail ∧
    (acquire_grant d filp pid).1.dead_tix = d.dead_tix := by
  unfold acquire_grant grant_write grant_read
  split <;> simp

theorem ioctl_tryacquire_frame (d : osprd_info) (filp : file) (pid : Int) :
    (ioctl_tryacquire d filp pid).1.ticket_head = d.ticket_head ∧
    (ioctl_tryacquire d filp pid).1.ticket_tail = d.ticket_tail ∧
    (ioctl_tryacquire d filp pid).1.dead_tix = d.dead_tix := by
  unfold ioctl_tryacquire grant_write grant_read
  repeat' split
  all_goals simp

theorem ioctl_release_frame (d : osprd_info) (filp : file) (pid : Int) :
    (ioctl_release d filp pid).1.ticket_head = d.ticket_head ∧
    (ioctl_release d filp pid).1.ticket_tail = d.ticket_tail ∧
    (ioctl_release d filp pid).1.dead_tix = d.dead_tix := by
  unfold ioctl_release
  repeat' split
  all_goals simp

theorem osprd_close_last_frame (d : osprd_info) (filp : file) (pid : Int) :
    (osprd_close_last d filp pid).1.ticket_head = d.ticket_head ∧
    (osprd_close_last d filp pid).1.ticket_tail = d.ticket_tail ∧
    (osprd_close_last d filp pid).1.dead_tix = d.dead_tix := by
  unfold osprd_close_last
  repeat' split
  all_goals simp

/-- Every atomic step of a session keeps the ticket invariant. -/
theorem sessionStep_inv (d : osprd_info) (x : Session) (op : Op) (r : osprd_info × Session)
    (sl : Nat → Option (Nat × Stage)) (log : List Event) (i : Nat)
    (hstep : sessionStep d x op = some r) (hsl : sl i = x.pc.slot)
    (hc : drawCount (log ++ observe d x i op) < 2 ^ 32)
    (I : TInv d.ticket_head d.ticket_tail d.dead_tix sl log) :
    TInv r.1.ticket_head r.1.ticket_tail r.1.dead_tix
      (Function.update sl i r.2.pc.slot) (log ++ observe d x i op) := by
  have hself : ∀ v, v = sl i → Function.update sl i v = sl := by
    intro v hv; rw [hv]; exact Function.update_eq_self i sl
  cases op with
  | acquire =>
    simp only [sessionStep] at hstep
    split at hstep
    · rename_i hpc
      split at hstep <;>
      · cases hstep
        simp only [observe, List.append_nil]
        rw [hself _ (by simp [hsl, hpc, Pc.slot])]
        exact I
    · cases hstep
  | draw =>
    simp only [sessionStep] at hstep
    split at hstep
    · rename_i hpc
      cases hstep
      simp only [observe, hpc, if_true] at hc ⊢
      simp only [drawCount_append, drawCount] at hc
      have hh : d.ticket_head + 1 < 2 ^ 32 := by rw [I.head_eq]; omega
      have hm : (d.ticket_head + 1) % 2 ^ 32 = d.ticket_head + 1 := Nat.mod_eq_of_lt hh
      simp only [acquire_draw, hm, Pc.slot]
      exact I.draw_step i (by simp [hsl, hpc, Pc.slot]) hh
    · cases hstep
  | test =>
    simp only [sessionStep] at hstep
    split at hstep
    · rename_i t hpc
      split at hstep
      · rename_i hw
        cases hstep
        simp only [observe, hpc, hw, if_true, List.append_nil]
        rw [hself _ (by simp [hsl, hpc, Pc.slot])]
        exact I
      · rename_i hw
        cases hstep
        obtain ⟨g1, g2, g3⟩ := acquire_grant_frame d x.filp x.pid
        simp only [observe, hpc, hw, g1, g2, g3, Pc.slot]
        have ht : d.ticket_tail = t := by
          unfold acquire_must_wait at hw
          split at hw <;> simp at hw <;> omega
        exact I.grant_step i t Stage.queued (by simp [hsl, hpc, Pc.slot]) (by decide) ht
    · cases hstep
  | wake sig =>
    simp only [sessionStep] at hstep
    split at hstep
    · rename_i t hpc
      have hI := wake_loop_inv d.dead_tix.length d sl log I
      have hfst : (osprd_wake_cond d (wait_dir x.filp) t).1 = skip_dead d := rfl
      split at hstep
      · rename_i hr
        cases hstep
        simp only [observe, List.append_nil, hfst, Pc.slot]
        have ht : (skip_dead d).ticket_tail = t := by
          unfold osprd_wake_cond at hr
          simp only at hr
          split at hr
          · split at hr
            · rename_i h; exact h.2
            · exact absurd rfl hr
          · split at hr
            · rename_i h; exact h.2.2
            · exact absurd rfl hr
        exact TInv.wake_step hI i t (by simp [hsl, hpc, Pc.slot]) ht
      · split at hstep
        · cases hstep
          simp only [observe, List.append_nil, hfst]
          rw [hself _ (by simp [hsl, hpc, Pc.slot])]
          exact hI
        · cases hstep
          simp only [observe, List.append_nil, hfst]
          rw [hself _ (by simp [hsl, hpc, Pc.slot])]
          exact hI
    · cases hstep
  | markDead =>
    simp only [sessionStep] at hstep
    split at hstep
    · rename_i t hpc
      cases hstep
      simp only [observe, hpc, acquire_mark_dead, Pc.slot]
      exact I.dead_step i t (by simp [hsl, hpc, Pc.slot])
    · cases hstep
  | grant =>
    simp only [sessionStep] at hstep
    split at hstep
    · rename_i t hpc
      cases hstep
      obtain ⟨g1, g2, g3⟩ := acquire_grant_frame d x.filp x.pid
      simp only [observe, hpc, g1, g2, g3, Pc.slot]
      have hi : sl i = some (t, Stage.woken) := by simp [hsl, hpc, Pc.slot]
      have ht : d.ticket_tail = t := (I.served_tail i t _ hi (by decide)).symm
      exact I.grant_step i t Stage.woken hi (by decide) ht
    · cases hstep
  | advance =>
    simp only [sessionStep] at hstep
    split at hstep
    · rename_i t hpc
      cases hstep
      have hi : sl i = some (t, Stage.granted) := by simp [hsl, hpc, Pc.slot]
      obtain ⟨htl, hI⟩ := I.advance_step i t hi
      have h1 := I.live_range i t _ hi
      have h2 := I.head_lt
      have hm : (d.ticket_tail + 1) % 2 ^ 32 = d.ticket_tail + 1 := Nat.mod_eq_of_lt (by omega)
      simp only [observe, hpc, acquire_advance, hm, Pc.slot]
      exact hI
    · cases hstep
  | tryAcquire =>
    simp only [sessionStep] at hstep
    split at hstep
    · rename_i hpc
      cases hstep
      obtain ⟨g1, g2, g3⟩ := ioctl_tryacquire_frame d x.filp x.pid
      simp only [observe, List.append_nil, g1, g2, g3]
      rw [hself _ (by simp [hsl, hpc, Pc.slot])]
      exact I
    · cases hstep
  | release =>
    simp only [sessionStep] at hstep
    split at hstep
    · rename_i hpc
      cases hstep
      obtain ⟨g1, g2, g3⟩ := ioctl_release_frame d x.filp x.pid
      simp only [observe, List.append_nil, g1, g2, g3]
      rw [hself _ (by simp [hsl, hpc, Pc.slot])]
      exact I
    · cases hstep
  | close =>
    simp only [sessionStep] at hstep
    split at hstep
    · rename_i hpc
      cases hstep
      obtain ⟨g1, g2, g3⟩ := osprd_close_last_frame d x.filp x.pid
      simp only [observe, List.append_nil, g1, g2, g3]
      rw [hself _ (by simp [hsl, hpc, Pc.slot])]
      exact I
    · cases hstep

/-- A step of the system keeps the ticket invariant. -/
theorem step_inv (s s1 : Sys) (a : Action) (x : Session) (log : List Event)
    (hx : s.ss[a.i]? = some x) (hstep : step s a = some s1) (hI : Inv s log) :
    Inv s1 (log ++ observe s.d x a.i a.op) := by
  intro hc
  have hc0 : drawCount log < 2 ^ 32 := by
    rw [drawCount_append] at hc; omega
  have I := hI hc0
  simp only [step, hx] at hstep
  cases hr : sessionStep s.d x a.op with
  | none => simp [hr] at hstep
  | some r =>
    simp only [hr, Option.some.injEq] at hstep
    subst hstep
    rw [slotOf_set s a.i x r.2 r.1 hx]
    exact sessionStep_inv s.d x a.op r (slotOf s) log a.i hr (slotOf_self s a.i x hx) hc I

/-- Every schedule keeps the ticket invariant. -/
theorem exec_inv (tr : List Action) (s : Sys) (log : List Event) (s1 : Sys)
    (log1 : List Event) (hI : Inv s log) (hrun : exec s log tr = some (s1, log1)) :
    Inv s1 log1 := by
  induction tr generalizing s log with
  | nil =>
    simp only [exec, Option.some.injEq, Prod.mk.injEq] at hrun
    rw [← hrun.1, ← hrun.2]; exact hI
  | cons a rest ih =>
    simp only [exec] at hrun
    cases hx : s.ss[a.i]? with
    | none => simp [hx] at hrun
    | some x =>
      simp only [hx] at hrun
      cases hs : step s a with
      | none => simp [hs] at hrun
      | some s2 =>
        simp only [hs] at hrun
        exact ih s2 _ (step_inv s s2 a x log hx hs hI) hrun

theorem slotOf_boot (opens : List (Int × file)) (j : Nat) : slotOf (boot opens) j = none := by
  simp only [slotOf, boot, List.getElem?_map]
  cases opens[j]? <;> simp [Pc.slot]

/-- The state after module load satisfies the ticket invariant. -/
theorem boot_inv (opens : List (Int × file)) : Inv (boot opens) [] := by
  intro _
  constructor
  · simp [boot, osprd_setup, drawCount]
  · simp [boot, osprd_setup]
  · simp [boot, osprd_setup]
  · intro j t st h; simp [slotOf_boot] at h
  · intro j k t st st2 h; simp [slotOf_boot] at h
  · intro k hk; simp [boot, osprd_setup] at hk
  · simp [boot, osprd_setup]
  · intro j t st h; simp [slotOf_boot] at h
  · intro j t st h; simp [slotOf_boot] at h
  · intro i t tl h; simp at h
  · intro i t a b h; simp at h
  · simp [grantsOf]
  · intro g hg; simp [grantsOf] at hg
  · intro j t h; simp [slotOf_boot] at h
  · intro k hk; simp [boot, osprd_setup] at hk
  · intro k hk; simp [boot, osprd_setup] at hk
  · intro k hk1 hk2; simp [boot, osprd_setup] at hk2

/-- The logged run and the plain run are the same execution. -/
theorem exec_fst_eq_run (tr : List Action) (s : Sys) (log : List Event) :
    (exec s log tr).map Prod.fst = run s tr := by
  induction tr generalizing s log with
  | nil => simp [exec, run]
  | cons a rest ih =>
    simp only [exec, run]
    cases hs : step s a with
    | none =>
      cases hx : s.ss[a.i]? <;> simp
    | some s1 =>
      cases hx : s.ss[a.i]? with
      | none => simp [step, hx] at hs
      | some x => simpa using ih s1 _

/-- C8.  FIFO order of blocking acquires.  Along every schedule from the
initial state that draws fewer than `2 ^ 32` tickets: every grant of a
blocking acquire with ticket `t` happens while `ticket_tail == t`; the
`ticket_tail++` that ends the granted call moves `ticket_tail` from `t` to
`t + 1`; the granted tickets, in the order of the grants, are strictly
increasing; and every ticket below `ticket_tail` was either granted or
pushed on the dead list by its interrupted waiter. -/
theorem fifo_order (opens : List (Int × file)) (tr : List Action) (s : Sys)
    (log : List Event) (hrun : exec (boot opens) [] tr = some (s, log))
    (hdraw : drawCount log < 2 ^ 32) :
    (∀ i t tl, Event.grant i t tl ∈ log → tl = t) ∧
    (∀ i t a b, Event.advance i t a b ∈ log → a = t ∧ b = t + 1) ∧
    (grantsOf log).Pairwise (fun a b => a < b) ∧
    (∀ k, k < s.d.ticket_tail → k ∈ grantsOf log ∨ k ∈ deadOf log) := by
  have I := exec_inv tr (boot opens) [] s log (boot_inv opens) hrun hdraw
  exact ⟨I.grant_ok, I.adv_ok, I.sorted, I.passed⟩

theorem fifo_order_witness :
    exec (boot fifoOpens) [] fifoSchedule = some (fifoState, fifoLog) ∧
    grantsOf fifoLog = [0, 2] ∧ deadOf fifoLog = [1] ∧
    (grantsOf fifoLog).Pairwise (fun a b => a < b) ∧
    (∀ k, k < 3 → k ∈ grantsOf fifoLog ∨ k ∈ deadOf fifoLog) :=
  ⟨rfl, rfl, rfl,
   (fifo_order fifoOpens fifoSchedule fifoState fifoLog rfl (by decide)).2.2.1,
   (fifo_order fifoOpens fifoSchedule fifoState fifoLog rfl (by decide)).2.2.2⟩

/-! ## C13: the writer / two readers / try-acquire scenario -/

/-- C13.  On a freshly set-up device with sessions A (201, writable),
B (202), C (203) (read-only) and D (204, writable): A's blocking acquire
draws ticket 0 and is granted by the test that follows the draw; B and C draw
tickets 1 and 2 and their wake predicates are false while A holds the write
lock (both stay waiting); after A's release B's predicate is true and B is
granted, then C's predicate is true and C is granted, so `read_list` holds
both and `num_ReadLocks` is 2; D's write try-acquire then returns
`-EBUSY`. -/
theorem scenario_writer_then_two_readers :
    (exec (boot scenarioOpens) [] scenarioA).map view =
      some (⟨1, 1, 1, 201, 0, [], []⟩,
        [(.idle, some 0), (.idle, none), (.idle, none), (.idle, none)],
        [.draw 0 0, .grant 0 0 0, .advance 0 0 0 1]) ∧
    (exec (boot scenarioOpens) [] (scenarioA ++ scenarioBC)).map view =
      some (⟨3, 1, 1, 201, 0, [], []⟩,
        [(.idle, some 0), (.waiting 1, none), (.waiting 2, none), (.idle, none)],
        [.draw 0 0, .grant 0 0 0, .advance 0 0 0 1, .draw 1 1, .draw 2 2]) ∧
    (osprd_wake_cond ⟨3, 1, 1, 201, 0, [], []⟩ READ 1).2 = 0 ∧
    (osprd_wake_cond ⟨3, 1, 1, 201, 0, [], []⟩ READ 2).2 = 0 ∧
    (exec (boot scenarioOpens) [] (scenarioA ++ scenarioBC ++ scenarioRelease)).map view =
      some (⟨3, 1, 0, -1, 0, [], []⟩,
        [(.idle, some 0), (.waiting 1, none), (.waiting 2, none), (.idle, none)],
        [.draw 0 0, .grant 0 0 0, .advance 0 0 0 1, .draw 1 1, .draw 2 2]) ∧
    (osprd_wake_cond ⟨3, 1, 0, -1, 0, [], []⟩ READ 1).2 = 1 ∧
    (exec (boot scenarioOpens) [] (scenarioA ++ scenarioBC ++ scenarioRelease ++ scenarioB)).map
        view =
      some (⟨3, 2, 0, -1, 1, [202], []⟩,
        [(.idle, some 0), (.idle, some 0), (.waiting 2, none), (.idle, none)],
        [.draw 0 0, .grant 0 0 0, .advance 0 0 0 1, .draw 1 1, .draw 2 2, .grant 1 1 1,
         .advance 1 1 1 2]) ∧
    (osprd_wake_cond ⟨3, 2, 0, -1, 1, [202], []⟩ READ 2).2 = 1 ∧
    (exec (boot scenarioOpens) []
        (scenarioA ++ scenarioBC ++ scenarioRelease ++ scenarioB ++ scenarioC)).map view =
      some (⟨3, 3, 0, -1, 2, [203, 202], []⟩,
        [(.idle, some 0), (.idle, some 0), (.idle, some 0), (.idle, none)],
        [.draw 0 0, .grant 0 0 0, .advance 0 0 0 1, .draw 1 1, .draw 2 2, .grant 1 1 1,
         .advance 1 1 1 2, .grant 2 2 2, .advance 2 2 2 3]) ∧
    (exec (boot scenarioOpens) []
        (scenarioA ++ scenarioBC ++ scenarioRelease ++ scenarioB ++ scenarioC ++
          scenarioD)).map view =
      some (⟨3, 3, 0, -1, 2, [203, 202], []⟩,
        [(.idle, some 0), (.idle, some 0), (.idle, some 0), (.idle, some (-EBUSY))],
        [.draw 0 0, .grant 0 0 0, .advance 0 0 0 1, .draw 1 1, .draw 2 2, .grant 1 1 1,
         .advance 1 1 1 2, .grant 2 2 2, .advance 2 2 2 3]) :=
  ⟨rfl, rfl, rfl, rfl, rfl, rfl, rfl, rfl, rfl, rfl⟩

/-! ## C14: the tail never passes the head -/

/-- C14.  In every state reached from the initial state by a schedule of
acquire steps (deadlock check, ticket draw, test, wake-predicate evaluation,
interruption, grant, `ticket_tail++`), try-acquire, release and close that
draws fewer than `2 ^ 32` tickets, `ticket_tail <= ticket_head`. -/
theorem tail_le_head_reachable (opens : List (Int × file)) (tr : List Action) (s : Sys)
    (log : List Event) (hrun : exec (boot opens) [] tr = some (s, log))
    (hdraw : drawCount log < 2 ^ 32) :
    s.d.ticket_tail ≤ s.d.ticket_head :=
  (exec_inv tr (boot opens) [] s log (boot_inv opens) hrun hdraw).tail_le_head

theorem tail_le_head_reachable_witness :
    exec (boot fifoOpens) [] fifoSchedule = some (fifoState, fifoLog) ∧
    fifoState.d.ticket_tail ≤ fifoState.d.ticket_head :=
  ⟨rfl, tail_le_head_reachable fifoOpens fifoSchedule fifoState fifoLog rfl (by decide)⟩

/-! ## C15: reader count against reader list -/

/-- C15 (the code breaks the claim).  `num_ReadLocks` does not always equal
the length of `read_list`, and it can be negative.  After 101 took a read
lock, a release through the lock-free read-only file of 102 gives
`num_ReadLocks = 0` with `read_list = [101]`; after 103 has then been granted
the write lock, a second such release gives `num_ReadLocks = -1`. -/
theorem reader_count_diverges :
    (∃ s : Sys, Reachable s ∧
      run (boot [(101, roFile), (102, roFile), (103, rwFile)])
        [⟨0, .tryAcquire⟩, ⟨1, .release⟩] = some s ∧
      s.d.num_ReadLocks = 0 ∧ s.d.read_list = [101] ∧
      s.d.num_ReadLocks ≠ (s.d.read_list.length : Int)) ∧
    (∃ s : Sys, Reachable s ∧
      run (boot [(101, roFile), (102, roFile), (103, rwFile)])
        [⟨0, .tryAcquire⟩, ⟨1, .release⟩, ⟨2, .tryAcquire⟩, ⟨1, .release⟩] = some s ∧
      s.d.num_ReadLocks = -1 ∧ s.d.read_list = [101] ∧ s.d.num_ReadLocks < 0) := by
  have h1 : run (boot [(101, roFile), (102, roFile), (103, rwFile)])
      [⟨0, .tryAcquire⟩, ⟨1, .release⟩] =
      some ⟨⟨0, 0, 0, -1, 0, [101], []⟩,
        [⟨101, ⟨528384, 1⟩, .idle, some 0⟩, ⟨102, ⟨0, 1⟩, .idle, some 0⟩,
         ⟨103, ⟨4096, 3⟩, .idle, none⟩]⟩ := rfl
  have h2 : run (boot [(101, roFile), (102, roFile), (103, rwFile)])
      [⟨0, .tryAcquire⟩, ⟨1, .release⟩, ⟨2, .tryAcquire⟩, ⟨1, .release⟩] =
      some ⟨⟨0, 0, 1, 103, -1, [101], []⟩,
        [⟨101, ⟨528384, 1⟩, .idle, some 0⟩, ⟨102, ⟨0, 1⟩, .idle, some 0⟩,
         ⟨103, ⟨528384, 3⟩, .idle, some 0⟩]⟩ := rfl
  exact ⟨⟨_, ⟨_, _, h1⟩, h1, rfl, rfl, by decide⟩, ⟨_, ⟨_, _, h2⟩, h2, rfl, rfl, by decide⟩⟩

/-! ## C16: try-acquire and the queue -/

/-- C16.  `OSPRDIOCTRYACQUIRE` never writes `ticket_head`, `ticket_tail` or
`dead_tix`, and whenever it returns `-EBUSY` the device and the caller's file
(with its lock-held flag) are exactly as before the call. -/
theorem tryacquire_frame (d : osprd_info) (filp : file) (pid : Int) :
    (ioctl_tryacquire d filp pid).1.ticket_head = d.ticket_head ∧
    (ioctl_tryacquire d filp pid).1.ticket_tail = d.ticket_tail ∧
    (ioctl_tryacquire d filp pid).1.dead_tix = d.dead_tix ∧
    ((ioctl_tryacquire d filp pid).2.2 = -EBUSY →
      (ioctl_tryacquire d filp pid).1 = d ∧ (ioctl_tryacquire d filp pid).2.1 = filp) := by
  obtain ⟨h1, h2, h3⟩ := ioctl_tryacquire_frame d filp pid
  refine ⟨h1, h2, h3, ?_⟩
  unfold ioctl_tryacquire grant_write grant_read
  repeat' split
  all_goals simp [EBUSY]

theorem tryacquire_frame_witness :
    (ioctl_tryacquire ⟨3, 3, 0, -1, 2, [203, 202], []⟩ ⟨4096, 3⟩ 204).2.2 = -EBUSY ∧
    (ioctl_tryacquire ⟨3, 3, 0, -1, 2, [203, 202], []⟩ ⟨4096, 3⟩ 204).1 =
      ⟨3, 3, 0, -1, 2, [203, 202], []⟩ ∧
    (ioctl_tryacquire ⟨3, 3, 0, -1, 2, [203, 202], []⟩ ⟨4096, 3⟩ 204).2.1 = ⟨4096, 3⟩ :=
  ⟨by decide,
   (tryacquire_frame ⟨3, 3, 0, -1, 2, [203, 202], []⟩ ⟨4096, 3⟩ 204).2.2.2 (by decide)⟩

/-! ## C17: close against release -/

/-- C17.  `osprd_close_last` and the `OSPRDIOCRELEASE` branch of
`osprd_ioctl` compute the same thing: on every device state, file and calling
process (in particular for a file whose lock-held flag is set) they leave the
same device (write flag, write holder, `num_ReadLocks`, `read_list`, ticket
counters, dead list), the same file flags, and return the same value. -/
theorem close_last_eq_release (d : osprd_info) (filp : file) (pid : Int) :
    osprd_close_last d filp pid = ioctl_release d filp pid := by
  unfold osprd_close_last ioctl_release filp_writable
  by_cases hg : d.ramdisk_WriteLocked = 0 ∧ d.num_ReadLocks = 0
  · simp [hg]
  · by_cases hw : filp.f_mode &&& FMODE_WRITE = 0
    · simp [hg, hw]
    · simp [hg, hw]

/-! ## C19: the bounds check of `osprd_process_request` -/

/-- C19 (the code breaks the claim).  With `nsectors = 32`, a read request
for sector 32 (one sector) is out of bounds.  The code reports
`end_request(req, 0)` but does not return: it goes on to
`memcpy(req->buffer, d->data + 16384, 512)`, which reads the bytes
`16384 .. 16895` past the `32 * 512 = 16384` bytes of the data array, and
then reports `end_request(req, 1)`.  The same happens for writes and for both
widths of `sector_t`. -/
theorem out_of_bounds_request_still_copied :
    osprd_process_request 32 32 ⟨true, 32, 1, READ⟩ =
      [Effect.end_request 0, Effect.copy_to_buffer 16384 512, Effect.end_request 1] ∧
    osprd_process_request 64 32 ⟨true, 32, 1, READ⟩ =
      [Effect.end_request 0, Effect.copy_to_buffer 16384 512, Effect.end_request 1] ∧
    osprd_process_request 32 32 ⟨true, 31, 2, WRITE⟩ =
      [Effect.end_request 0, Effect.copy_from_buffer 15872 1024, Effect.end_request 1] ∧
    ((32 : Int) * SECTOR_SIZE ≤ 16384 + 512 - 1) ∧
    osprd_process_request 32 32 ⟨true, 32, 1, READ⟩ ≠ [Effect.end_request 0] := by
  refine ⟨by decide, by decide, by decide, by decide, by decide⟩

/-! ## C20: the flag update of release -/

/-- C20 (the code breaks the claim).  `filp->f_flags &= !F_OSPRD_LOCKED` is
`f_flags &= 0`: a successful release (and likewise `osprd_close_last`) clears
every flag of the file, not only `F_OSPRD_LOCKED`.  For the holder of a read
lock whose flags are `O_SYNC | F_OSPRD_LOCKED` the flags after the release
are 0, so the `O_SYNC` bit set by `osprd_open` is lost. -/
theorem release_clears_all_flags :
    (∀ (d : osprd_info) (filp : file) (pid : Int),
      (ioctl_release d filp pid).2.2 = 0 → (ioctl_release d filp pid).2.1.f_flags = 0) ∧
    (∀ (d : osprd_info) (filp : file) (pid : Int),
      (osprd_close_last d filp pid).2.2 = 0 → (osprd_close_last d filp pid).2.1.f_flags = 0) ∧
    (ioctl_tryacquire (osprd_setup zeroed) (osprd_open roFile) 101).2.1.f_flags =
      O_SYNC ||| F_OSPRD_LOCKED ∧
    ioctl_release ⟨0, 0, 0, -1, 1, [101], []⟩ ⟨O_SYNC ||| F_OSPRD_LOCKED, 1⟩ 101 =
      (⟨0, 0, 0, -1, 0, [], []⟩, ⟨0, 1⟩, 0) ∧
    (0 : Nat) &&& O_SYNC ≠ O_SYNC ∧
    (O_SYNC ||| F_OSPRD_LOCKED) &&& O_SYNC = O_SYNC := by
  refine ⟨?_, ?_, by decide, by decide, by decide, by decide⟩
  · intro d filp pid
    unfold ioctl_release
    split
    · simp [EINVAL]
    · simp [c_not, F_OSPRD_LOCKED]
  · intro d filp pid
    unfold osprd_close_last
    split
    · simp [EINVAL]
    · simp [c_not, F_OSPRD_LOCKED]

/-! ## C12: the dead-ticket loop -/

theorem wake_loop_of_not_mem (n : Nat) (d : osprd_info) (h : d.ticket_tail ∉ d.dead_tix) :
    wake_loop n d = d := by
  cases n with
  | zero => rfl
  | succ n => rw [wake_loop_succ, if_neg h]

/-- The loop, with enough fuel, as a count `m` of skipped tickets. -/
theorem wake_loop_count (n : Nat) (d : osprd_info) (hnd : d.dead_tix.Nodup)
    (htl : d.ticket_tail < 2 ^ 32) (hn : d.dead_tix.length ≤ n) :
    ∃ m, m ≤ d.dead_tix.length ∧
      (wake_loop n d).ticket_tail = (d.ticket_tail + m) % 2 ^ 32 ∧
      (∀ j, j < m → (d.ticket_tail + j) % 2 ^ 32 ∈ d.dead_tix) ∧
      (wake_loop n d).dead_tix =
        d.dead_tix.filter (fun k => decide (∀ j, j < m → k ≠ (d.ticket_tail + j) % 2 ^ 32)) := by
  have h0 : ∀ e : osprd_info, e.ticket_tail < 2 ^ 32 →
      e.ticket_tail % 4294967296 = e.ticket_tail := by
    intro e he; omega
  induction n generalizing d with
  | zero =>
    have hl : d.dead_tix = [] := List.length_eq_zero.1 (Nat.le_zero.1 hn)
    refine ⟨0, by simp, ?_, by simp, ?_⟩
    · simp [wake_loop, h0 d htl]
    · simp [wake_loop, hl]
  | succ n ih =>
    rw [wake_loop_succ]
    by_cases hm : d.ticket_tail ∈ d.dead_tix
    · rw [if_pos hm]
      have hlen : (d.dead_tix.erase d.ticket_tail).length = d.dead_tix.length - 1 :=
        List.length_erase_of_mem hm
      have hpos : 0 < d.dead_tix.length := List.length_pos_of_mem hm
      obtain ⟨m1, hm1, ht1, hin1, hf1⟩ :=
        ih { d with dead_tix := d.dead_tix.erase d.ticket_tail
                    ticket_tail := (d.ticket_tail + 1) % 2 ^ 32 }
          (hnd.erase _) (Nat.mod_lt _ (by positivity)) (by simp only [hlen]; omega)
      simp only at hm1 ht1 hin1 hf1
      have hshift : ∀ j, ((d.ticket_tail + 1) % 2 ^ 32 + j) % 2 ^ 32 =
          (d.ticket_tail + (j + 1)) % 2 ^ 32 := by
        intro j; omega
      refine ⟨m1 + 1, by rw [hlen] at hm1; omega, ?_, ?_, ?_⟩
      · rw [ht1, hshift]
      · intro j hj
        cases j with
        | zero => simpa [h0 d htl] using hm
        | succ j =>
          have := hin1 j (by omega)
          rw [hshift] at this
          exact List.mem_of_mem_erase this
      · rw [hf1, hnd.erase_eq_filter, List.filter_filter]
        apply List.filter_congr
        intro k _
        rw [Bool.eq_iff_iff]
        simp only [Bool.and_eq_true, decide_eq_true_eq, bne_iff_ne, ne_eq]
        constructor
        · rintro ⟨h1, h2⟩ j hj
          cases j with
          | zero => simpa [h0 d htl] using h2
          | succ j =>
            have := h1 j (by omega)
            rwa [hshift] at this
        · intro h
          refine ⟨?_, ?_⟩
          · intro j hj
            have := h (j + 1) (by omega)
            rwa [← hshift] at this
          · simpa [h0 d htl] using h 0 (by omega)
    · rw [if_neg hm]
      refine ⟨0, by omega, by simp [h0 d htl], by simp, by simp⟩

/-- C12.  The dead-ticket loop at the start of `osprd_wake_cond`, on a state
whose dead list has no duplicates (`ticket_tail` being a 32-bit unsigned
value, with unsigned arithmetic on tickets): it ends with
`ticket_tail = old_tail + m`, where the `m` tickets
`old_tail, ..., old_tail + m - 1` are all in the dead list and
`old_tail + m` is not (so `m` is the largest such number); the list that is
left is the old list without exactly those `m` tickets, in the old order; and
the new `ticket_tail` is not in it.  When `old_tail + m` does not wrap these
are statements about plain sums. -/
theorem advance_tail_spec (d : osprd_info) (hnd : d.dead_tix.Nodup)
    (htl : d.ticket_tail < 2 ^ 32) :
    ∃ m, m ≤ d.dead_tix.length ∧
      (skip_dead d).ticket_tail = (d.ticket_tail + m) % 2 ^ 32 ∧
      (∀ j, j < m → (d.ticket_tail + j) % 2 ^ 32 ∈ d.dead_tix) ∧
      (d.dead_tix.length < 2 ^ 32 → (d.ticket_tail + m) % 2 ^ 32 ∉ d.dead_tix) ∧
      (skip_dead d).dead_tix =
        d.dead_tix.filter
          (fun k => decide (∀ j, j < m → k ≠ (d.ticket_tail + j) % 2 ^ 32)) ∧
      (skip_dead d).ticket_tail ∉ (skip_dead d).dead_tix ∧
      (d.ticket_tail + m < 2 ^ 32 →
        (skip_dead d).ticket_tail = d.ticket_tail + m ∧
        (∀ j, j < m → d.ticket_tail + j ∈ d.dead_tix) ∧
        d.ticket_tail + m ∉ d.dead_tix) := by
  obtain ⟨m, hm, ht, hin, hf⟩ := wake_loop_count d.dead_tix.length d hnd htl (le_refl _)
  have hexit := wake_loop_exit d.dead_tix.length d (le_refl _)
  have hmax : d.dead_tix.length < 2 ^ 32 → (d.ticket_tail + m) % 2 ^ 32 ∉ d.dead_tix := by
    intro hlen hmem
    apply hexit
    rw [hf, ht, List.mem_filter]
    refine ⟨hmem, ?_⟩
    simp only [decide_eq_true_eq]
    intro j hj
    omega
  refine ⟨m, hm, ht, hin, hmax, hf, hexit, ?_⟩
  intro hw
  have hlen : m < 2 ^ 32 := by omega
  refine ⟨by rw [skip_dead, ht]; exact Nat.mod_eq_of_lt hw, ?_, ?_⟩
  · intro j hj
    have := hin j hj
    rwa [Nat.mod_eq_of_lt (by omega)] at this
  · intro hmem
    apply hexit
    rw [hf, ht, List.mem_filter, Nat.mod_eq_of_lt hw]
    refine ⟨hmem, ?_⟩
    simp only [decide_eq_true_eq]
    intro j hj
    omega

theorem advance_tail_spec_witness :
    skip_dead ⟨9, 3, 0, -1, 0, [], [5, 3, 7, 4]⟩ = ⟨9, 6, 0, -1, 0, [], [7]⟩ ∧
    ∃ m, m ≤ 4 ∧
      (skip_dead ⟨9, 3, 0, -1, 0, [], [5, 3, 7, 4]⟩).ticket_tail = (3 + m) % 2 ^ 32 ∧
      (∀ j, j < m → (3 + j) % 2 ^ 32 ∈ [5, 3, 7, 4]) ∧
      ((4 : Nat) < 2 ^ 32 → (3 + m) % 2 ^ 32 ∉ [5, 3, 7, 4]) ∧
      (skip_dead ⟨9, 3, 0, -1, 0, [], [5, 3, 7, 4]⟩).dead_tix =
        [5, 3, 7, 4].filter (fun k => decide (∀ j, j < m → k ≠ (3 + j) % 2 ^ 32)) ∧
      (skip_dead ⟨9, 3, 0, -1, 0, [], [5, 3, 7, 4]⟩).ticket_tail ∉
        (skip_dead ⟨9, 3, 0, -1, 0, [], [5, 3, 7, 4]⟩).dead_tix ∧
      (3 + m < 2 ^ 32 →
        (skip_dead ⟨9, 3, 0, -1, 0, [], [5, 3, 7, 4]⟩).ticket_tail = 3 + m ∧
        (∀ j, j < m → 3 + j ∈ [5, 3, 7, 4]) ∧
        3 + m ∉ [5, 3, 7, 4]) :=
  ⟨rfl, advance_tail_spec ⟨9, 3, 0, -1, 0, [], [5, 3, 7, 4]⟩ (by decide) (by decide)⟩

/-! ## C11: an interrupted waiter does not block the queue -/

/-- On any device state with `ticket_tail == k`, `k` in the dead list,
`k + 1` not in it and the lock free for the direction asked, the wake
predicate for ticket `k + 1` unlinks `k`, moves `ticket_tail` to `k + 1`
and returns 1. -/
theorem wake_cond_skips_dead_ticket (d : osprd_info) (dir : Int) (k : Nat)
    (htail : d.ticket_tail = k) (hdead : k ∈ d.dead_tix) (hlive : k + 1 ∉ d.dead_tix)
    (hw : k + 1 < 2 ^ 32) (hwl : d.ramdisk_WriteLocked = 0)
    (hrd : dir ≠ READ → d.num_ReadLocks = 0) :
    osprd_wake_cond d dir (k + 1) =
      ({ d with ticket_tail := k + 1, dead_tix := d.dead_tix.erase k }, 1) := by
  have hskip : skip_dead d = { d with ticket_tail := k + 1, dead_tix := d.dead_tix.erase k } := by
    unfold skip_dead
    obtain ⟨n, hn⟩ : ∃ n, d.dead_tix.length = n + 1 :=
      Nat.exists_eq_succ_of_ne_zero (Nat.pos_iff_ne_zero.1 (List.length_pos_of_mem hdead))
    rw [hn, wake_loop_succ, htail, if_pos hdead, Nat.mod_eq_of_lt hw]
    apply wake_loop_of_not_mem
    exact fun h => hlive (List.mem_of_mem_erase h)
  unfold osprd_wake_cond
  simp only [hskip]
  by_cases hd : dir = READ
  · simp [hd, hwl]
  · simp [hd, hwl, hrd hd]

/-- C11.  In every state reached by a schedule that draws fewer than
`2 ^ 32` tickets, if `ticket_tail == k`, ticket `k` is in the dead list and a
session is waiting with ticket `k + 1` in a mode the lock state allows (no
write lock held and, for a writer, `num_ReadLocks == 0`), then one evaluation
of that waiter's wake predicate unlinks `k` (which is then no longer in the
dead list), moves `ticket_tail` to `k + 1` and returns 1; the waiter leaves
`wait_event_interruptible` (whether or not a signal is pending) and its next
step, on whatever device state it then finds, is the grant. -/
theorem interrupt_does_not_block (opens : List (Int × file)) (tr : List Action) (s : Sys)
    (log : List Event) (hrun : exec (boot opens) [] tr = some (s, log))
    (hdraw : drawCount log < 2 ^ 32)
    (i : Nat) (x : Session) (k : Nat) (sig : Bool)
    (hx : s.ss[i]? = some x) (hpc : x.pc = Pc.waiting (k + 1))
    (htail : s.d.ticket_tail = k) (hdead : k ∈ s.d.dead_tix)
    (hwl : s.d.ramdisk_WriteLocked = 0)
    (hrd : filp_writable x.filp = true → s.d.num_ReadLocks = 0) :
    osprd_wake_cond s.d (wait_dir x.filp) (k + 1) =
      ({ s.d with ticket_tail := k + 1, dead_tix := s.d.dead_tix.erase k }, 1) ∧
    k ∉ s.d.dead_tix.erase k ∧
    step s ⟨i, .wake sig⟩ =
      some ⟨{ s.d with ticket_tail := k + 1, dead_tix := s.d.dead_tix.erase k },
            s.ss.set i { x with pc := Pc.woken (k + 1) }⟩ ∧
    (∀ e : osprd_info,
      sessionStep e { x with pc := Pc.woken (k + 1) } .grant =
        some ((acquire_grant e x.filp x.pid).1,
              { x with filp := (acquire_grant e x.filp x.pid).2, pc := Pc.granted (k + 1) })) := by
  have I := exec_inv tr (boot opens) [] s log (boot_inv opens) hrun hdraw
  have hslot : slotOf s i = some (k + 1, Stage.queued) := by
    rw [slotOf_self s i x hx, hpc]; rfl
  have hlive : k + 1 ∉ s.d.dead_tix := I.dead_live i _ _ hslot
  have hw : k + 1 < 2 ^ 32 := by
    have h1 := (I.live_range i _ _ hslot).2
    have h2 := I.head_lt
    omega
  have hdir : wait_dir x.filp ≠ READ → s.d.num_ReadLocks = 0 := by
    intro h
    apply hrd
    unfold wait_dir at h
    by_cases hwr : filp_writable x.filp = true
    · exact hwr
    · simp [hwr] at h
  have hA := wake_cond_skips_dead_ticket s.d (wait_dir x.filp) k htail hdead hlive hw hwl hdir
  refine ⟨hA, ?_, ?_, ?_⟩
  · intro h
    have := (I.dead_nodup.mem_erase_iff).1 h
    exact this.1 rfl
  · simp [step, hx, sessionStep, hpc, hA]
  · intro e
    simp [sessionStep]

theorem interrupt_does_not_block_witness :
    exec (boot fifoOpens) [] skipSchedule = some (skipState, skipLog) ∧
    osprd_wake_cond skipState.d READ 2 = (⟨3, 2, 0, -1, 0, [], []⟩, 1) ∧
    step skipState ⟨2, .wake false⟩ =
      some ⟨⟨3, 2, 0, -1, 0, [], []⟩,
        [⟨101, ⟨0, 3⟩, .idle, some 0⟩, ⟨102, ⟨4096, 1⟩, .idle, some (-512)⟩,
         ⟨103, ⟨4096, 1⟩, .woken 2, none⟩]⟩ :=
  ⟨rfl,
   (interrupt_does_not_block fifoOpens skipSchedule skipState skipLog rfl (by decide)
      2 ⟨103, ⟨4096, 1⟩, .waiting 2, none⟩ 1 false rfl rfl rfl (by decide) rfl
      (by decide)).1,
   (interrupt_does_not_block fifoOpens skipSchedule skipState skipLog rfl (by decide)
      2 ⟨103, ⟨4096, 1⟩, .waiting 2, none⟩ 1 false rfl rfl rfl (by decide) rfl
      (by decide)).2.2.1⟩

/-! ## C18: the tickets between tail and head -/

/-- C18, as stated, fails inside the two windows the code leaves open.
(1) Between a grant and the `ticket_tail++` that follows it: after the draw
and the immediate grant of a single writer the device has `ticket_tail = 0`,
`ticket_head = 1` and an empty dead list, and the only session has already
been granted; ticket 0 lies in `[ticket_tail, ticket_head)` but belongs
neither to a waiter that is not yet granted or interrupted nor to the dead
list.  (2) Between the `-ERESTARTSYS` return of `wait_event_interruptible`
and the push on `dead_tix`: ticket 1 of the interrupted session 102 lies in
`[1, 3)` and is in neither class. -/
theorem ticket_of_granted_session_unaccounted :
    exec (boot [(101, rwFile)]) [] grantedSchedule =
      some (grantedState, [.draw 0 0, .grant 0 0 0]) ∧
    drawCount [.draw 0 0, .grant 0 0 0] < 2 ^ 32 ∧
    grantedState.d.ramdisk_WriteLocked = 1 ∧
    ¬ (∀ k, grantedState.d.ticket_tail ≤ k → k < grantedState.d.ticket_head →
        ((∃ j, pendingOf grantedState j = some k) ∨ k ∈ grantedState.d.dead_tix)) ∧
    exec (boot fifoOpens) [] signalledSchedule =
      some (signalledState, [.draw 0 0, .grant 0 0 0, .advance 0 0 0 1, .draw 1 1, .draw 2 2]) ∧
    ¬ (∀ k, signalledState.d.ticket_tail ≤ k → k < signalledState.d.ticket_head →
        ((∃ j, pendingOf signalledState j = some k) ∨ k ∈ signalledState.d.dead_tix)) := by
  refine ⟨rfl, by decide, rfl, ?_, rfl, ?_⟩
  · intro h
    rcases h 0 (by decide) (by decide) with ⟨j, hj⟩ | hd
    · cases j with
      | zero => simp [pendingOf, grantedState, Pc.pending] at hj
      | succ j => simp [pendingOf, grantedState] at hj
    · simp [grantedState] at hd
  · intro h
    rcases h 1 (by decide) (by decide) with ⟨j, hj⟩ | hd
    · match j with
      | 0 => simp [pendingOf, signalledState, Pc.pending] at hj
      | 1 => simp [pendingOf, signalledState, Pc.pending] at hj
      | 2 => simp [pendingOf, signalledState, Pc.pending] at hj
      | j + 3 => simp [pendingOf, signalledState] at hj
    · simp [signalledState] at hd

/-- C18, amended.  In every state reached by a schedule that draws fewer
than `2 ^ 32` tickets, every ticket in `[ticket_tail, ticket_head)` belongs to
exactly one of: a session inside a blocking acquire that drew it and has not
yet finished the call (it is still queued, or it was told to proceed or was
granted and has not yet run its final `ticket_tail++`, or it was interrupted
and has not yet pushed the ticket), or the dead list.  No two sessions hold
the same ticket, no held ticket is in the dead list, every held ticket lies
in `[ticket_tail, ticket_head)`, the dead list has no duplicates and contains
no ticket outside `[ticket_tail, ticket_head)`. -/
theorem ticket_partition (opens : List (Int × file)) (tr : List Action) (s : Sys)
    (log : List Event) (hrun : exec (boot opens) [] tr = some (s, log))
    (hdraw : drawCount log < 2 ^ 32) :
    (∀ k, s.d.ticket_tail ≤ k → k < s.d.ticket_head →
      ((∃ j st, slotOf s j = some (k, st)) ∨ k ∈ s.d.dead_tix)) ∧
    (∀ j j2 k st st2, slotOf s j = some (k, st) → slotOf s j2 = some (k, st2) → j = j2) ∧
    (∀ j k st, slotOf s j = some (k, st) →
      k ∉ s.d.dead_tix ∧ s.d.ticket_tail ≤ k ∧ k < s.d.ticket_head) ∧
    s.d.dead_tix.Nodup ∧
    (∀ k, k ∈ s.d.dead_tix → s.d.ticket_tail ≤ k ∧ k < s.d.ticket_head) := by
  have I := exec_inv tr (boot opens) [] s log (boot_inv opens) hrun hdraw
  refine ⟨I.complete, I.live_inj, ?_, I.dead_nodup, I.dead_range⟩
  intro j k st hj
  exact ⟨I.dead_live j k st hj, I.live_range j k st hj⟩

theorem ticket_partition_witness :
    exec (boot fifoOpens) [] skipSchedule = some (skipState, skipLog) ∧
    slotOf skipState 2 = some (2, Stage.queued) ∧
    skipState.d.dead_tix = [1] ∧
    (∀ k, 1 ≤ k → k < 3 → ((∃ j st, slotOf skipState j = some (k, st)) ∨ k ∈ [1])) :=
  ⟨rfl, rfl, rfl,
   (ticket_partition fifoOpens skipSchedule skipState skipLog rfl (by decide)).1⟩

/-! ## C21: try-acquire where acquire would block or deadlock -/

/-- Whenever a blocking acquire would pass its deadlock check and then have
to wait at the test that follows its ticket draw, `OSPRDIOCTRYACQUIRE` in the
same state returns `-EBUSY`. -/
theorem tryacquire_busy_when_acquire_waits (d : osprd_info) (filp : file) (pid : Int)
    (hno : acquire_deadlock d filp pid = false)
    (hwait : acquire_must_wait (acquire_draw d).1 filp (acquire_draw d).2 = true) :
    ioctl_tryacquire d filp pid = (d, filp, -EBUSY) := by
  unfold acquire_deadlock at hno
  unfold acquire_must_wait acquire_draw at hwait
  unfold ioctl_tryacquire
  by_cases hp : pid = d.pid_holdingWriteLock
  · simp [hp] at hno
  · by_cases hw : filp_writable filp = true
    · have hb : d.num_ReadLocks ≠ 0 ∨ d.ramdisk_WriteLocked ≠ 0 ∨
          d.ticket_head ≠ d.ticket_tail := by
        by_contra hcon
        simp only [not_or, not_not] at hcon
        obtain ⟨h1, h2, h3⟩ := hcon
        simp [hw, h1, h2, h3] at hwait
      simp only [hp, hw, if_false, if_true] at hno ⊢
      simp [hno, hb]
    · have hw2 : filp_writable filp = false := by simpa using hw
      have hb : d.ramdisk_WriteLocked ≠ 0 ∨ d.ticket_head ≠ d.ticket_tail := by
        by_contra hcon
        simp only [not_or, not_not] at hcon
        obtain ⟨h1, h2⟩ := hcon
        simp [hw2, h1, h2] at hwait
      simp [hp, hw2, hb]

/-- C21 (the code breaks the claim).  Where `OSPRDIOCACQUIRE` would return
`-EDEADLK`, `OSPRDIOCTRYACQUIRE` returns `-EDEADLK` (-35) as well, not
`-EBUSY` (-16): (1) process 101 holds the write lock and tries again through
the same file; (2) process 101 holds a read lock and tries through a second,
writable file. -/
theorem tryacquire_returns_deadlock_not_busy :
    run (boot [(101, rwFile)]) [⟨0, .tryAcquire⟩] =
      some ⟨⟨0, 0, 1, 101, 0, [], []⟩, [⟨101, ⟨528384, 3⟩, .idle, some 0⟩]⟩ ∧
    acquire_deadlock ⟨0, 0, 1, 101, 0, [], []⟩ ⟨528384, 3⟩ 101 = true ∧
    ioctl_tryacquire ⟨0, 0, 1, 101, 0, [], []⟩ ⟨528384, 3⟩ 101 =
      (⟨0, 0, 1, 101, 0, [], []⟩, ⟨528384, 3⟩, -35) ∧
    run (boot [(101, roFile), (101, rwFile)]) [⟨0, .tryAcquire⟩] =
      some ⟨⟨0, 0, 0, -1, 1, [101], []⟩,
        [⟨101, ⟨528384, 1⟩, .idle, some 0⟩, ⟨101, ⟨4096, 3⟩, .idle, none⟩]⟩ ∧
    acquire_deadlock ⟨0, 0, 0, -1, 1, [101], []⟩ ⟨4096, 3⟩ 101 = true ∧
    ioctl_tryacquire ⟨0, 0, 0, -1, 1, [101], []⟩ ⟨4096, 3⟩ 101 =
      (⟨0, 0, 0, -1, 1, [101], []⟩, ⟨4096, 3⟩, -35) ∧
    (-35 : Int) = -EDEADLK ∧ (-35 : Int) ≠ -EBUSY :=
  ⟨rfl, rfl, rfl, rfl, rfl, rfl, rfl, by decide⟩

/-! ## C22: termination of the dead-ticket loop -/

/-- Fuel beyond the length of the dead list is never used. -/
theorem wake_loop_stable (n : Nat) (d : osprd_info) (hn : d.dead_tix.length ≤ n) :
    wake_loop n d = wake_loop d.dead_tix.length d := by
  induction n generalizing d with
  | zero =>
    have h0 : d.dead_tix.length = 0 := Nat.le_zero.1 hn
    rw [h0]
  | succ n ih =>
    by_cases hm : d.ticket_tail ∈ d.dead_tix
    · have hlen : (d.dead_tix.erase d.ticket_tail).length = d.dead_tix.length - 1 :=
        List.length_erase_of_mem hm
      have hpos : 0 < d.dead_tix.length := List.length_pos_of_mem hm
      have hl : d.dead_tix.length = (d.dead_tix.erase d.ticket_tail).length + 1 := by omega
      rw [wake_loop_succ, if_pos hm]
      conv_rhs => rw [hl, wake_loop_succ, if_pos hm]
      exact ih _ (by simp only [hlen]; omega)
    · rw [wake_loop_of_not_mem _ _ hm, wake_loop_of_not_mem _ _ hm]

/-- The number of iterations of the loop: as many as nodes were unlinked,
each with one increment of `ticket_tail`. -/
theorem wake_loop_iterations (n : Nat) (d : osprd_info) :
    ∃ m, (wake_loop n d).dead_tix.length + m = d.dead_tix.length ∧
      (wake_loop n d).ticket_tail =
        Nat.iterate (fun t => (t + 1) % 2 ^ 32) m d.ticket_tail := by
  induction n generalizing d with
  | zero => exact ⟨0, by simp [wake_loop], by simp [wake_loop]⟩
  | succ n ih =>
    rw [wake_loop_succ]
    by_cases hm : d.ticket_tail ∈ d.dead_tix
    · rw [if_pos hm]
      have hlen : (d.dead_tix.erase d.ticket_tail).length = d.dead_tix.length - 1 :=
        List.length_erase_of_mem hm
      have hpos : 0 < d.dead_tix.length := List.length_pos_of_mem hm
      obtain ⟨m1, h1, h2⟩ :=
        ih { d with dead_tix := d.dead_tix.erase d.ticket_tail
                    ticket_tail := (d.ticket_tail + 1) % 2 ^ 32 }
      simp only at h1 h2
      refine ⟨m1 + 1, by rw [hlen] at h1; omega, ?_⟩
      rw [h2, Function.iterate_succ_apply]
    · rw [if_neg hm]
      exact ⟨0, by simp, by simp⟩

/-- C22.  The dead-ticket loop of `osprd_wake_cond` terminates on every
device state.  One iteration either finds `ticket_tail` in the list, unlinks
one node (the list gets one shorter) and increments `ticket_tail` once, or
leaves the loop without changing anything.  After `m` iterations, with
`m` at most the length of the list and equal to the number of unlinked nodes,
the loop has ended: `ticket_tail` is not in the list that is left (in
particular when the list is empty), and allowing more iterations changes
nothing. -/
theorem dead_loop_terminates (d : osprd_info) :
    (∀ e : osprd_info, e.ticket_tail ∈ e.dead_tix →
      wake_loop 1 e = { e with dead_tix := e.dead_tix.erase e.ticket_tail
                               ticket_tail := (e.ticket_tail + 1) % 2 ^ 32 } ∧
      (e.dead_tix.erase e.ticket_tail).length + 1 = e.dead_tix.length) ∧
    (∀ e : osprd_info, e.ticket_tail ∉ e.dead_tix → ∀ n, wake_loop n e = e) ∧
    (∃ m, m ≤ d.dead_tix.length ∧
      (skip_dead d).dead_tix.length + m = d.dead_tix.length ∧
      (skip_dead d).ticket_tail =
        Nat.iterate (fun t => (t + 1) % 2 ^ 32) m d.ticket_tail) ∧
    (skip_dead d).ticket_tail ∉ (skip_dead d).dead_tix ∧
    (∀ n, d.dead_tix.length ≤ n → wake_loop n d = skip_dead d) := by
  refine ⟨?_, ?_, ?_, ?_, ?_⟩
  · intro e he
    refine ⟨?_, ?_⟩
    · rw [wake_loop_succ, if_pos he]; rfl
    · have := List.length_erase_of_mem he
      have := List.length_pos_of_mem he
      omega
  · intro e he n
    exact wake_loop_of_not_mem n e he
  · obtain ⟨m, h1, h2⟩ := wake_loop_iterations d.dead_tix.length d
    exact ⟨m, by omega, h1, h2⟩
  · exact wake_loop_exit d.dead_tix.length d (le_refl _)
  · intro n hn
    exact wake_loop_stable n d hn

theorem dead_loop_terminates_witness :
    skip_dead ⟨9, 3, 0, -1, 0, [], [5, 3, 3, 4]⟩ = ⟨9, 6, 0, -1, 0, [], [3]⟩ ∧
    wake_loop 100 ⟨9, 3, 0, -1, 0, [], [5, 3, 3, 4]⟩ =
      skip_dead ⟨9, 3, 0, -1, 0, [], [5, 3, 3, 4]⟩ :=
  ⟨rfl, (dead_loop_terminates ⟨9, 3, 0, -1, 0, [], [5, 3, 3, 4]⟩).2.2.2.2 100 (by decide)⟩

/-! ## C23: write flag and write holder -/

theorem acquire_grant_agree (d : osprd_info) (filp : file) (pid : Int) (hpid : pid ≠ -1)
    (h : d.ramdisk_WriteLocked ≠ 0 ↔ d.pid_holdingWriteLock ≠ -1) :
    (acquire_grant d filp pid).1.ramdisk_WriteLocked ≠ 0 ↔
      (acquire_grant d filp pid).1.pid_holdingWriteLock ≠ -1 := by
  unfold acquire_grant grant_write grant_read
  split
  · simp [hpid]
  · simpa using h

theorem ioctl_tryacquire_agree (d : osprd_info) (filp : file) (pid : Int) (hpid : pid ≠ -1)
    (h : d.ramdisk_WriteLocked ≠ 0 ↔ d.pid_holdingWriteLock ≠ -1) :
    (ioctl_tryacquire d filp pid).1.ramdisk_WriteLocked ≠ 0 ↔
      (ioctl_tryacquire d filp pid).1.pid_holdingWriteLock ≠ -1 := by
  unfold ioctl_tryacquire grant_write grant_read
  repeat' split
  all_goals first
    | exact h
    | simp [hpid]

theorem ioctl_release_agree (d : osprd_info) (filp : file) (pid : Int)
    (h : d.ramdisk_WriteLocked ≠ 0 ↔ d.pid_holdingWriteLock ≠ -1) :
    (ioctl_release d filp pid).1.ramdisk_WriteLocked ≠ 0 ↔
      (ioctl_release d filp pid).1.pid_holdingWriteLock ≠ -1 := by
  unfold ioctl_release
  repeat' split
  all_goals first
    | exact h
    | simp

theorem osprd_close_last_agree (d : osprd_info) (filp : file) (pid : Int)
    (h : d.ramdisk_WriteLocked ≠ 0 ↔ d.pid_holdingWriteLock ≠ -1) :
    (osprd_close_last d filp pid).1.ramdisk_WriteLocked ≠ 0 ↔
      (osprd_close_last d filp pid).1.pid_holdingWriteLock ≠ -1 := by
  unfold osprd_close_last
  repeat' split
  all_goals first
    | exact h
    | simp

/-- One atomic step of a session with a real pid keeps the write flag and the
write holder in agreement, and does not change the session's pid. -/
theorem sessionStep_agree (d : osprd_info) (x : Session) (op : Op) (r : osprd_info × Session)
    (hstep : sessionStep d x op = some r) (hpid : x.pid ≠ -1)
    (h : d.ramdisk_WriteLocked ≠ 0 ↔ d.pid_holdingWriteLock ≠ -1) :
    (r.1.ramdisk_WriteLocked ≠ 0 ↔ r.1.pid_holdingWriteLock ≠ -1) ∧ r.2.pid = x.pid := by
  cases op with
  | acquire =>
    simp only [sessionStep] at hstep
    split at hstep
    · split at hstep <;>
      · cases hstep
        exact ⟨h, rfl⟩
    · cases hstep
  | draw =>
    simp only [sessionStep] at hstep
    split at hstep
    · cases hstep
      exact ⟨h, rfl⟩
    · cases hstep
  | test =>
    simp only [sessionStep] at hstep
    split at hstep
    · split at hstep
      · cases hstep
        exact ⟨h, rfl⟩
      · cases hstep
        exact ⟨acquire_grant_agree d x.filp x.pid hpid h, rfl⟩
    · cases hstep
  | wake sig =>
    simp only [sessionStep] at hstep
    split at hstep
    · rename_i t _
      obtain ⟨_, f2, f3, _, _⟩ := wake_loop_frame d.dead_tix.length d
      have hw : ((osprd_wake_cond d (wait_dir x.filp) t).1.ramdisk_WriteLocked ≠ 0 ↔
          (osprd_wake_cond d (wait_dir x.filp) t).1.pid_holdingWriteLock ≠ -1) := by
        show ((skip_dead d).ramdisk_WriteLocked ≠ 0 ↔ (skip_dead d).pid_holdingWriteLock ≠ -1)
        unfold skip_dead
        rw [f2, f3]
        exact h
      split at hstep
      · cases hstep
        exact ⟨hw, rfl⟩
      · split at hstep <;>
        · cases hstep
          exact ⟨hw, rfl⟩
    · cases hstep
  | markDead =>
    simp only [sessionStep] at hstep
    split at hstep
    · cases hstep
      exact ⟨h, rfl⟩
    · cases hstep
  | grant =>
    simp only [sessionStep] at hstep
    split at hstep
    · cases hstep
      exact ⟨acquire_grant_agree d x.filp x.pid hpid h, rfl⟩
    · cases hstep
  | advance =>
    simp only [sessionStep] at hstep
    split at hstep
    · cases hstep
      exact ⟨h, rfl⟩
    · cases hstep
  | tryAcquire =>
    simp only [sessionStep] at hstep
    split at hstep
    · cases hstep
      exact ⟨ioctl_tryacquire_agree d x.filp x.pid hpid h, rfl⟩
    · cases hstep
  | release =>
    simp only [sessionStep] at hstep
    split at hstep
    · cases hstep
      exact ⟨ioctl_release_agree d x.filp x.pid h, rfl⟩
    · cases hstep
  | close =>
    simp only [sessionStep] at hstep
    split at hstep
    · cases hstep
      exact ⟨osprd_close_last_agree d x.filp x.pid h, rfl⟩
    · cases hstep

/-- Every schedule keeps the agreement, as long as all pids are real. -/
theorem run_agree (tr : List Action) (s s1 : Sys)
    (hp : ∀ x, x ∈ s.ss → x.pid ≠ -1)
    (h : s.d.ramdisk_WriteLocked ≠ 0 ↔ s.d.pid_holdingWriteLock ≠ -1)
    (hrun : run s tr = some s1) :
    (∀ x, x ∈ s1.ss → x.pid ≠ -1) ∧
    (s1.d.ramdisk_WriteLocked ≠ 0 ↔ s1.d.pid_holdingWriteLock ≠ -1) := by
  induction tr generalizing s with
  | nil =>
    simp only [run, Option.some.injEq] at hrun
    subst hrun
    exact ⟨hp, h⟩
  | cons a rest ih =>
    simp only [run] at hrun
    cases hs : step s a with
    | none => simp [hs] at hrun
    | some s2 =>
      simp only [hs] at hrun
      simp only [step] at hs
      cases hx : s.ss[a.i]? with
      | none => simp [hx] at hs
      | some x =>
        simp only [hx] at hs
        cases hr : sessionStep s.d x a.op with
        | none => simp [hr] at hs
        | some r =>
          simp only [hr, Option.some.injEq] at hs
          subst hs
          have hxm : x ∈ s.ss := List.getElem?_mem hx
          obtain ⟨h1, h2⟩ := sessionStep_agree s.d x a.op r hr (hp x hxm) h
          refine ih _ ?_ h1 hrun
          intro y hy
          rcases List.mem_or_eq_of_mem_set hy with hy | hy
          · exact hp y hy
          · rw [hy, h2]; exact hp x hxm

/-- C23.  In every state reachable from the initial state by any schedule of
acquire, try-acquire, release and close steps of sessions whose pids are real
(never -1), `ramdisk_WriteLocked` is non-zero if and only if
`pid_holdingWriteLock != -1`. -/
theorem write_flag_agrees_with_holder (opens : List (Int × file))
    (hp : ∀ o, o ∈ opens → o.1 ≠ -1) (tr : List Action) (s : Sys)
    (hrun : run (boot opens) tr = some s) :
    s.d.ramdisk_WriteLocked ≠ 0 ↔ s.d.pid_holdingWriteLock ≠ -1 := by
  refine (run_agree tr (boot opens) s ?_ ?_ hrun).2
  · intro x hx
    simp only [boot, List.mem_map] at hx
    obtain ⟨o, ho, rfl⟩ := hx
    exact hp o ho
  · simp [boot, osprd_setup]

theorem write_flag_agrees_with_holder_witness :
    run (boot [(101, roFile), (102, roFile), (103, rwFile)])
      [⟨0, .tryAcquire⟩, ⟨1, .release⟩, ⟨2, .tryAcquire⟩] =
      some ⟨⟨0, 0, 1, 103, 0, [101], []⟩,
        [⟨101, ⟨528384, 1⟩, .idle, some 0⟩, ⟨102, ⟨0, 1⟩, .idle, some 0⟩,
         ⟨103, ⟨528384, 3⟩, .idle, some 0⟩]⟩ ∧
    ((1 : Int) ≠ 0 ↔ (103 : Int) ≠ -1) :=
  ⟨rfl,
   write_flag_agrees_with_holder [(101, roFile), (102, roFile), (103, rwFile)]
     (by decide) [⟨0, .tryAcquire⟩, ⟨1, .release⟩, ⟨2, .tryAcquire⟩]
     ⟨⟨0, 0, 1, 103, 0, [101], []⟩,
      [⟨101, ⟨528384, 1⟩, .idle, some 0⟩, ⟨102, ⟨0, 1⟩, .idle, some 0⟩,
       ⟨103, ⟨528384, 3⟩, .idle, some 0⟩]⟩ rfl⟩

/-! ## C24: try-acquire does not skip dead tickets -/

/-- C24.  There is a reachable state in which no session holds a lock, the
only outstanding ticket is dead (`ticket_head == ticket_tail + 1`,
`ticket_tail` in `dead_tix`) and `OSPRDIOCTRYACQUIRE` returns `-EBUSY` for a
reader (session 2) and for a writer (session 3), leaving the whole device,
so `ticket_tail` and the dead list, unchanged; whereas a blocking
`OSPRDIOCACQUIRE` issued in the same state draws ticket 2, skips the dead
ticket in its first wake-predicate evaluation and is granted, for a reader
and for a writer alike. -/
theorem tryacquire_does_not_skip_dead :
    run (boot deadOnlyOpens) deadOnlySchedule = some deadOnlyState ∧
    Reachable deadOnlyState ∧
    deadOnlyState.d.ramdisk_WriteLocked = 0 ∧ deadOnlyState.d.num_ReadLocks = 0 ∧
    deadOnlyState.d.read_list = [] ∧
    (∀ x, x ∈ deadOnlyState.ss → x.filp.f_flags &&& F_OSPRD_LOCKED = 0) ∧
    deadOnlyState.d.ticket_head = deadOnlyState.d.ticket_tail + 1 ∧
    deadOnlyState.d.ticket_tail ∈ deadOnlyState.d.dead_tix ∧
    ioctl_tryacquire deadOnlyState.d ⟨4096, 1⟩ 103 = (deadOnlyState.d, ⟨4096, 1⟩, -EBUSY) ∧
    ioctl_tryacquire deadOnlyState.d ⟨4096, 3⟩ 104 = (deadOnlyState.d, ⟨4096, 3⟩, -EBUSY) ∧
    run deadOnlyState [⟨2, .tryAcquire⟩, ⟨3, .tryAcquire⟩] =
      some ⟨deadOnlyState.d,
        [⟨101, ⟨0, 3⟩, .idle, some 0⟩, ⟨102, ⟨4096, 1⟩, .idle, some (-512)⟩,
         ⟨103, ⟨4096, 1⟩, .idle, some (-EBUSY)⟩, ⟨104, ⟨4096, 3⟩, .idle, some (-EBUSY)⟩]⟩ ∧
    run deadOnlyState (blockingAcquire 2) =
      some ⟨⟨3, 3, 0, -1, 1, [103], []⟩,
        [⟨101, ⟨0, 3⟩, .idle, some 0⟩, ⟨102, ⟨4096, 1⟩, .idle, some (-512)⟩,
         ⟨103, ⟨528384, 1⟩, .idle, some 0⟩, ⟨104, ⟨4096, 3⟩, .idle, none⟩]⟩ ∧
    run deadOnlyState (blockingAcquire 3) =
      some ⟨⟨3, 3, 1, 104, 0, [], []⟩,
        [⟨101, ⟨0, 3⟩, .idle, some 0⟩, ⟨102, ⟨4096, 1⟩, .idle, some (-512)⟩,
         ⟨103, ⟨4096, 1⟩, .idle, none⟩, ⟨104, ⟨528384, 3⟩, .idle, some 0⟩]⟩ := by
  have hrun : run (boot deadOnlyOpens) deadOnlySchedule = some deadOnlyState := rfl
  refine ⟨hrun, ⟨_, _, hrun⟩, rfl, rfl, rfl, by decide, rfl, by decide, rfl, rfl, rfl, rfl, rfl⟩

end Osprd
